import Mathlib

/-!
percona/mongodb_exporter: collectors, suppression ledger and exported samples

A shallow embedding of

* `collector/mongod/collections_status.go` (`GetCollectionStatList`,
  `CollectionStatList.Export`, `CollectionStatList.Describe`),
* `collector/mongos/connections.go` (`ConnectionStats.Export`),
* `exporter/replset_config_collector.go` (`replSetGetConfigCollector.Collect`
  and `Describe`).

Conventions.

* Go's `float64` is an abstract type `F`; the only operation the embedded code
  performs on it is the conversion `float64(n)` of an `int`, a parameter
  `float64 : Int → F`.  No arithmetic on floats occurs in the embedded code.
* A Go `string` that can reach a label value is a `GoString`, a sequence of bytes
  that need not be valid UTF-8; `ValidString` is Go's `utf8.ValidString`.
  Texts whose bytes the code never inspects (messages, metric and label names,
  document keys) are Lean strings.
* A panic is the result `none`; nothing is sent on the channel by a call that
  panics, and the state it leaves is not tracked (every statement about a
  later call holds for any prior state).
* A Go `map[string]T` literal or field is a list of key/value pairs; the
  iteration order of a Go map is unspecified, so results about emitted samples
  are stated up to permutation.
* The package-level variables (`logSuppressCS`, the gauge vectors) are explicit
  state, passed in and returned.
* Calls on the database client and on the logger are effects; they are recorded
  in an event list returned next to the result.
-/

namespace MongodbExporter

/-! ## Go strings -/

/-- A Go `string`: a sequence of bytes, not necessarily valid UTF-8. -/
structure GoString where
  bytes : List (Fin 256)
  deriving DecidableEq

/-- The UTF-8 encoding of the code point `c`. -/
def utf8Encode (c : Nat) : List (Fin 256) :=
  if c < 0x80 then [Fin.ofNat c]
  else if c < 0x800 then [Fin.ofNat (0xC0 + c / 64), Fin.ofNat (0x80 + c % 64)]
  else if c < 0x10000 then
    [Fin.ofNat (0xE0 + c / 4096), Fin.ofNat (0x80 + c / 64 % 64), Fin.ofNat (0x80 + c % 64)]
  else
    [Fin.ofNat (0xF0 + c / 262144), Fin.ofNat (0x80 + c / 4096 % 64),
     Fin.ofNat (0x80 + c / 64 % 64), Fin.ofNat (0x80 + c % 64)]

/-- The Go string written as the string literal `s`. -/
def GoString.ofString (s : String) : GoString :=
  { bytes := s.data.flatMap (fun c => utf8Encode c.toNat) }

instance : Append GoString := ⟨fun a b => { bytes := a.bytes ++ b.bytes }⟩

/-- Scans a byte sequence for well-formed UTF-8: `pending` continuation bytes are
still due, the next of which must lie in `lo..hi`. -/
def utf8Scan (pending lo hi : Nat) : List (Fin 256) → Bool
  | [] => pending == 0
  | b :: rest =>
    if pending = 0 then
      if b.val < 0x80 then utf8Scan 0 0x80 0xBF rest
      else if 0xC2 ≤ b.val ∧ b.val ≤ 0xDF then utf8Scan 1 0x80 0xBF rest
      else if b.val = 0xE0 then utf8Scan 2 0xA0 0xBF rest
      else if b.val = 0xED then utf8Scan 2 0x80 0x9F rest
      else if 0xE1 ≤ b.val ∧ b.val ≤ 0xEF then utf8Scan 2 0x80 0xBF rest
      else if b.val = 0xF0 then utf8Scan 3 0x90 0xBF rest
      else if 0xF1 ≤ b.val ∧ b.val ≤ 0xF3 then utf8Scan 3 0x80 0xBF rest
      else if b.val = 0xF4 then utf8Scan 3 0x80 0x8F rest
      else false
    else if lo ≤ b.val ∧ b.val ≤ hi then utf8Scan (pending - 1) 0x80 0xBF rest
    else false

/-- The function `utf8.ValidString` of the Go standard library. -/
def ValidString (s : GoString) : Bool := utf8Scan 0 0x80 0xBF s.bytes

/-! ## `collector/mongod/collections_status.go`: data -/

/-- The Go struct `CollectionStatus`; `IndexSizes` is the `map[string]float64`. -/
structure CollectionStatus (F : Type) where
  Database : GoString
  Name : GoString
  Size : Int
  Count : Int
  AvgObjSize : Int
  StorageSize : Int
  IndexesSize : Int
  IndexSizes : List (GoString × F)

/-- The Go struct `CollectionStatList`. -/
structure CollectionStatList (F : Type) where
  Members : List (CollectionStatus F)

/-- The three helpers of package `collector/common` that `GetCollectionStatList`
calls.  Their file is not among the sources, so they are parameters of the
embedding: every theorem below holds for any choice of them. -/
structure Common where
  IsSystemDB : GoString → Bool
  IsSystemCollection : GoString → Bool
  CollFullName : GoString → GoString → GoString

/-- The part of `*mongo.Client` that `GetCollectionStatList` uses, as the state of
the server seen during one call: `ListDatabaseNames`, `Database(db).ListCollectionNames`
and `Database(db).RunCommand(collStats coll, scale 1).Decode(&collStatus)`.
An error is represented by its message. -/
structure Client (F : Type) where
  ListDatabaseNames : Except String (List GoString)
  ListCollectionNames : GoString → Except String (List GoString)
  collStats : GoString → GoString → Except String (CollectionStatus F)

/-- What a call does besides returning: a fetch on the client, tagged with the
`logSuppressCS` key that guards it and whether it succeeded, or a `log.Warnf`,
tagged with the key under which it was issued. -/
inductive Event where
  | fetch (key : GoString) (ok : Bool)
  | warn (key : GoString) (msg : String)
  deriving DecidableEq

/-- The package variable `logSuppressCS` (a `map[string]struct{}`, i.e. a set of
keys) together with the events recorded so far. -/
structure LogState where
  logSuppressCS : List GoString
  events : List Event
  deriving DecidableEq

/-- The constant `keyCS`. -/
def keyCS : GoString := GoString.ofString ""

/-- Records that the fetch guarded by `key` was made and how it ended. -/
def LogState.fetched (st : LogState) (key : GoString) (ok : Bool) : LogState :=
  { st with events := st.events ++ [Event.fetch key ok] }

/-- The block `if _, ok := logSuppressCS[key]; !ok { log.Warnf(...); logSuppressCS[key] = struct{}{} }`. -/
def LogState.warnOnce (st : LogState) (key : GoString) (msg : String) : LogState :=
  if key ∈ st.logSuppressCS then st
  else { logSuppressCS := key :: st.logSuppressCS, events := st.events ++ [Event.warn key msg] }

/-- The statement `delete(logSuppressCS, key)`. -/
def LogState.delete (st : LogState) (key : GoString) : LogState :=
  { st with logSuppressCS := st.logSuppressCS.filter (fun k => k ≠ key) }

/-! ## `GetCollectionStatList` -/

/-- Body of the inner loop `for _, collName := range collNames`. -/
def collStep {F : Type} (cm : Common) (client : Client F) (dbName : GoString)
    (acc : LogState × List (CollectionStatus F)) (collName : GoString) :
    LogState × List (CollectionStatus F) :=
  if cm.IsSystemCollection collName then acc
  else
    let fullCollName := cm.CollFullName dbName collName
    match client.collStats dbName collName with
    | .error err =>
      ((acc.1.fetched fullCollName false).warnOnce fullCollName
        (err ++ ". Collection stats will not be collected for this collection. This log message will be suppressed from now."),
       acc.2)
    | .ok collStatus =>
      ((acc.1.fetched fullCollName true).delete fullCollName,
       acc.2 ++ [{ collStatus with Database := dbName, Name := collName }])

/-- Body of the outer loop `for _, dbName := range dbNames`. -/
def dbStep {F : Type} (cm : Common) (client : Client F)
    (acc : LogState × List (CollectionStatus F)) (dbName : GoString) :
    LogState × List (CollectionStatus F) :=
  if cm.IsSystemDB dbName then acc
  else
    match client.ListCollectionNames dbName with
    | .error err =>
      ((acc.1.fetched dbName false).warnOnce dbName
        (err ++ ". Collection stats will not be collected for this db. This log message will be suppressed from now."),
       acc.2)
    | .ok collNames =>
      collNames.foldl (collStep cm client dbName) ((acc.1.fetched dbName true).delete dbName, acc.2)

/-- The function `GetCollectionStatList`: from the content of `logSuppressCS` before
the call to the returned pointer (`none` for `nil`), and the content of
`logSuppressCS` and the events of this call. -/
def GetCollectionStatList {F : Type} (cm : Common) (client : Client F) (logSuppressCS : List GoString) :
    Option (CollectionStatList F) × LogState :=
  let st : LogState := { logSuppressCS := logSuppressCS, events := [] }
  match client.ListDatabaseNames with
  | .error err =>
    (none, (st.fetched keyCS false).warnOnce keyCS
      (err ++ ". Collection stats will not be collected. This log message will be suppressed from now."))
  | .ok dbNames =>
    let r := dbNames.foldl (dbStep cm client) ((st.fetched keyCS true).delete keyCS, [])
    (some { Members := r.2 }, r.1)

/-! ### Reading the events of a call -/

/-- The outcomes, in order, of the fetches guarded by key `k`. -/
def attemptsOf (k : GoString) (t : List Event) : List Bool :=
  t.filterMap (fun e => match e with
    | .fetch k' ok => if k' = k then some ok else none
    | .warn _ _ => none)

/-- The warnings, in order, issued under key `k`. -/
def warnsOf (k : GoString) (t : List Event) : List String :=
  t.filterMap (fun e => match e with
    | .fetch _ _ => none
    | .warn k' msg => if k' = k then some msg else none)

/-- The fetch of scope `k` is attempted in the call and fails (each time it is made). -/
def FailsIn (k : GoString) (t : List Event) : Prop :=
  attemptsOf k t ≠ [] ∧ ∀ ok ∈ attemptsOf k t, ok = false

/-- The fetch of scope `k` is attempted in the call and succeeds (each time it is made). -/
def SucceedsIn (k : GoString) (t : List Event) : Prop :=
  attemptsOf k t ≠ [] ∧ ∀ ok ∈ attemptsOf k t, ok = true

instance (k : GoString) (t : List Event) : Decidable (FailsIn k t) := by
  unfold FailsIn; infer_instance

instance (k : GoString) (t : List Event) : Decidable (SucceedsIn k t) := by
  unfold SucceedsIn; infer_instance

/-- One attempt seen from key `k`: membership of `k` in the ledger and the number
of warnings for `k` so far. -/
def ledgerStep (s : Bool × Nat) (ok : Bool) : Bool × Nat :=
  if ok then (false, s.2) else (true, if s.1 then s.2 else s.2 + 1)

/-- The members `GetCollectionStatList` is specified to return, written
declaratively: in listing order, for every non-system database whose collection
listing succeeds, every non-system collection whose `collStats` succeeds, with
`Database` and `Name` set. -/
def expectedMembers {F : Type} (cm : Common) (client : Client F) (dbNames : List GoString) :
    List (CollectionStatus F) :=
  (dbNames.filter (fun d => !cm.IsSystemDB d)).flatMap (fun d =>
    match client.ListCollectionNames d with
    | .error _ => []
    | .ok collNames =>
      (collNames.filter (fun c => !cm.IsSystemCollection c)).filterMap (fun c =>
        match client.collStats d c with
        | .error _ => none
        | .ok s => some { s with Database := d, Name := c }))

/-- The server state `client` changed in one place: listing the collections of
database `d` fails with `err`. -/
def Client.failDatabase {F : Type} (client : Client F) (d : GoString) (err : String) : Client F :=
  { client with ListCollectionNames := fun d' => if d' = d then .error err else client.ListCollectionNames d' }

/-- The server state `client` changed in one place: `collStats` of collection `c`
of database `d` fails with `err`. -/
def Client.failCollection {F : Type} (client : Client F) (d c : GoString) (err : String) : Client F :=
  { client with collStats := fun d' c' =>
      if d' = d ∧ c' = c then .error err else client.collStats d' c' }

/-- An instance of `Common` to evaluate the code on concrete inputs (the helpers
themselves stay parameters of every general statement): the database names
`admin`, `local` and `config` and the collection names starting with `system.`
are system ones, and the full name is `db.collection`. -/
def exampleCommon : Common where
  IsSystemDB := fun d =>
    d == GoString.ofString "admin" || d == GoString.ofString "local"
      || d == GoString.ofString "config"
  IsSystemCollection := fun c => (GoString.ofString "system.").bytes.isPrefixOf c.bytes
  CollFullName := fun d c => d ++ GoString.ofString "." ++ c

/-- A server that is down: every fetch fails. -/
def downClient : Client Int where
  ListDatabaseNames := .error "server selection timeout"
  ListCollectionNames := fun _ => .error "server selection timeout"
  collStats := fun _ _ => .error "server selection timeout"

/-- A server that answers and has no database. -/
def emptyClient : Client Int where
  ListDatabaseNames := .ok []
  ListCollectionNames := fun _ => .ok []
  collStats := fun _ _ => .error "ns not found"

/-- A server with the databases `admin` and `shop`; `shop` holds `orders`,
`system.views` and `carts`, and `collStats` fails for `carts`. -/
def shopClient : Client Int where
  ListDatabaseNames := .ok [GoString.ofString "admin", GoString.ofString "shop"]
  ListCollectionNames := fun d =>
    if d = GoString.ofString "shop" then
      .ok [GoString.ofString "orders", GoString.ofString "system.views", GoString.ofString "carts"]
    else .error "not authorized"
  collStats := fun d c =>
    if d = GoString.ofString "shop" ∧ c = GoString.ofString "orders" then
      .ok { Database := GoString.ofString "", Name := GoString.ofString "", Size := 100,
            Count := 4, AvgObjSize := 25, StorageSize := 4096, IndexesSize := 6144,
            IndexSizes := [(GoString.ofString "_id_", 4096), (GoString.ofString "name_1", 2048)] }
    else .error "not authorized"

/-- The ledger seen from key `k` after some events of a call that started from
`s0`: membership of `k` and the number of warnings under `k` are those obtained
by running `ledgerStep` over the attempts for `k`. -/
def LedgerInv (k : GoString) (s0 : List GoString) (st : LogState) : Prop :=
  (decide (k ∈ st.logSuppressCS), (warnsOf k st.events).length)
    = (attemptsOf k st.events).foldl ledgerStep (decide (k ∈ s0), 0)

/-! ## The part of `prometheus/client_golang` the collectors use -/

/-- The function `prometheus.BuildFQName`. -/
def BuildFQName (ns subsystem name : String) : String :=
  if name = "" then ""
  else if ns ≠ "" ∧ subsystem ≠ "" then ns ++ "_" ++ subsystem ++ "_" ++ name
  else if ns ≠ "" then ns ++ "_" ++ name
  else if subsystem ≠ "" then subsystem ++ "_" ++ name
  else name

/-- A `*prometheus.Desc`: fully qualified name, help and variable label names (no
descriptor of the embedded code has constant labels). -/
structure Desc where
  fqName : String
  help : String
  variableLabels : List String
  deriving DecidableEq

/-- The type `prometheus.ValueType`, as far as used. -/
inductive ValueType where
  | CounterValue
  | GaugeValue
  deriving DecidableEq

/-- A `prometheus.Metric` as the scraper sees it: its descriptor, the values of
the variable labels in the order of the descriptor, the value and the kind. -/
structure Sample (F : Type) where
  desc : Desc
  labelValues : List GoString
  value : F
  kind : ValueType
  deriving DecidableEq

/-- The metric name of a sample. -/
def Sample.name {F : Type} (s : Sample F) : String := s.desc.fqName

/-- The label set of a sample: the label names of its descriptor paired with its
label values. -/
def Sample.labels {F : Type} (s : Sample F) : List (String × GoString) :=
  s.desc.variableLabels.zip s.labelValues

/-- What identifies a time series within a scrape: metric name and label set. -/
def Sample.key {F : Type} (s : Sample F) : String × List (String × GoString) :=
  (s.name, s.labels)

/-- The struct `prometheus.GaugeOpts`, as far as used. -/
structure GaugeOpts where
  Namespace : String
  Subsystem : String
  Name : String
  Help : String

/-- The immutable part of a `*prometheus.GaugeVec`: its descriptor. -/
structure GaugeVec where
  desc : Desc
  deriving DecidableEq

/-- The function `prometheus.NewGaugeVec`. -/
def NewGaugeVec (opts : GaugeOpts) (labelNames : List String) : GaugeVec :=
  { desc := { fqName := BuildFQName opts.Namespace opts.Subsystem opts.Name,
              help := opts.Help, variableLabels := labelNames } }

/-- The mutable part of a gauge vector: its children, keyed by label values.  The
order of the list stands for the unspecified iteration order of the Go map. -/
abbrev VecState (F : Type) := List (List GoString × F)

/-- Sets the child with label values `lvs` to `x`, creating it when absent. -/
def VecState.set {F : Type} (m : VecState F) (lvs : List GoString) (x : F) : VecState F :=
  m.filter (fun e => e.1 ≠ lvs) ++ [(lvs, x)]

/-- A sequence of `set`s, first to last. -/
def VecState.setAll {F : Type} (m : VecState F) (kvs : List (List GoString × F)) : VecState F :=
  kvs.foldl (fun acc kv => acc.set kv.1 kv.2) m

/-- The label values `With(labels)` looks up, in the order of the variable labels;
`none` is the panic of `With` on a label map whose size is not the number of
variable labels, that holds a value that is not valid UTF-8, or that lacks a
variable label. -/
def GaugeVec.labelValues (v : GaugeVec) (labels : List (String × GoString)) :
    Option (List GoString) :=
  if labels.length ≠ v.desc.variableLabels.length then none
  else if labels.all (fun l => ValidString l.2) then
    v.desc.variableLabels.mapM (fun n => labels.lookup n)
  else none

/-- The call `v.With(labels).Set(x)`. -/
def GaugeVec.WithSet {F : Type} (v : GaugeVec) (labels : List (String × GoString)) (x : F)
    (m : VecState F) : Option (VecState F) :=
  (v.labelValues labels).map (fun lvs => m.set lvs x)

/-- The call `v.WithLabelValues(lvs...).Set(x)`; `none` is the panic on a wrong
number of label values or on a value that is not valid UTF-8. -/
def GaugeVec.WithLabelValuesSet {F : Type} (v : GaugeVec) (lvs : List GoString) (x : F)
    (m : VecState F) : Option (VecState F) :=
  if lvs.length ≠ v.desc.variableLabels.length then none
  else if lvs.all ValidString then some (m.set lvs x)
  else none

/-- The call `v.Reset()`. -/
def GaugeVec.Reset {F : Type} (_v : GaugeVec) (_m : VecState F) : VecState F := []

/-- The call `v.Collect(ch)`: one gauge sample per child. -/
def GaugeVec.Collect {F : Type} (v : GaugeVec) (m : VecState F) : List (Sample F) :=
  m.map (fun e => { desc := v.desc, labelValues := e.1, value := e.2, kind := ValueType.GaugeValue })

/-- The call `v.Describe(ch)`. -/
def GaugeVec.Describe (v : GaugeVec) : List Desc := [v.desc]

/-- The function `prometheus.NewDesc`, without constant labels. -/
def NewDesc (fqName help : String) (variableLabels : List String) : Desc :=
  { fqName := fqName, help := help, variableLabels := variableLabels }

/-- The function `prometheus.MustNewConstMetric`; `none` is its panic on a wrong
number of label values or on a value that is not valid UTF-8. -/
def MustNewConstMetric {F : Type} (desc : Desc) (valueType : ValueType) (value : F)
    (labelValues : List GoString) : Option (Sample F) :=
  if labelValues.length ≠ desc.variableLabels.length then none
  else if labelValues.all ValidString then
    some { desc := desc, labelValues := labelValues, value := value, kind := valueType }
  else none

/-! ## `collector/mongod/collections_status.go`: `Export` and `Describe` -/

namespace Mongod

/-- The gauge vector `collectionSize`; the package constant `Namespace` is declared
in another file and is a parameter. -/
def collectionSize (Namespace : String) : GaugeVec :=
  NewGaugeVec { Namespace := Namespace, Subsystem := "db_coll", Name := "size",
                Help := "The total size in memory of all records in a collection" } ["db", "coll"]

/-- The gauge vector `collectionObjectCount`. -/
def collectionObjectCount (Namespace : String) : GaugeVec :=
  NewGaugeVec { Namespace := Namespace, Subsystem := "db_coll", Name := "count",
                Help := "The number of objects or documents in this collection" } ["db", "coll"]

/-- The gauge vector `collectionAvgObjSize`. -/
def collectionAvgObjSize (Namespace : String) : GaugeVec :=
  NewGaugeVec { Namespace := Namespace, Subsystem := "db_coll", Name := "avgobjsize",
                Help := "The average size of an object in the collection (plus any padding)" }
    ["db", "coll"]

/-- The gauge vector `collectionStorageSize`. -/
def collectionStorageSize (Namespace : String) : GaugeVec :=
  NewGaugeVec { Namespace := Namespace, Subsystem := "db_coll", Name := "storage_size",
                Help := "The total amount of storage allocated to this collection for document storage" }
    ["db", "coll"]

/-- The gauge vector `collectionIndexes`. -/
def collectionIndexes (Namespace : String) : GaugeVec :=
  NewGaugeVec { Namespace := Namespace, Subsystem := "db_coll", Name := "indexes",
                Help := "The number of indexes on the collection" } ["db", "coll"]

/-- The gauge vector `collectionIndexesSize`. -/
def collectionIndexesSize (Namespace : String) : GaugeVec :=
  NewGaugeVec { Namespace := Namespace, Subsystem := "db_coll", Name := "indexes_size",
                Help := "The total size of all indexes" } ["db", "coll"]

/-- The gauge vector `collectionIndexSize`. -/
def collectionIndexSize (Namespace : String) : GaugeVec :=
  NewGaugeVec { Namespace := Namespace, Subsystem := "db_coll", Name := "index_size",
                Help := "The individual index size" } ["db", "coll", "index"]

/-- The children of the seven package-level gauge vectors. -/
structure Vecs (F : Type) where
  size : VecState F
  objectCount : VecState F
  avgObjSize : VecState F
  storageSize : VecState F
  indexes : VecState F
  indexesSize : VecState F
  indexSize : VecState F
  deriving DecidableEq

/-- The inner loop `for indexName, size := range member.IndexSizes` of `Export`. -/
def exportIndexSizes {F : Type} (Namespace : String) (member : CollectionStatus F)
    (m : VecState F) : Option (VecState F) :=
  member.IndexSizes.foldlM (fun acc e =>
    (collectionIndexSize Namespace).WithSet
      [("db", member.Database), ("coll", member.Name), ("index", e.1)] e.2 acc) m

/-- Body of the loop `for _, member := range collStatList.Members` of `Export`. -/
def exportMember {F : Type} (Namespace : String) (float64 : Int → F)
    (st : Vecs F) (member : CollectionStatus F) : Option (Vecs F) := do
  let ls := [("db", member.Database), ("coll", member.Name)]
  let size ← (collectionSize Namespace).WithSet ls (float64 member.Size) st.size
  let objectCount ← (collectionObjectCount Namespace).WithSet ls (float64 member.Count) st.objectCount
  let avgObjSize ← (collectionAvgObjSize Namespace).WithSet ls (float64 member.AvgObjSize) st.avgObjSize
  let storageSize ←
    (collectionStorageSize Namespace).WithSet ls (float64 member.StorageSize) st.storageSize
  let indexes ←
    (collectionIndexes Namespace).WithSet ls (float64 member.IndexSizes.length) st.indexes
  let indexesSize ←
    (collectionIndexesSize Namespace).WithSet ls (float64 member.IndexesSize) st.indexesSize
  let indexSize ← exportIndexSizes Namespace member st.indexSize
  pure { size := size, objectCount := objectCount, avgObjSize := avgObjSize,
         storageSize := storageSize, indexes := indexes, indexesSize := indexesSize,
         indexSize := indexSize }

/-- The method `CollectionStatList.Export`: from the children of the seven vectors
before the call to their children after it and the samples sent on `ch`, in the
order sent; `none` is the panic of `With` on a label value that is not valid
UTF-8, after which nothing is sent. -/
def Export {F : Type} (Namespace : String) (float64 : Int → F)
    (collStatList : CollectionStatList F) (vecs : Vecs F) : Option (Vecs F × List (Sample F)) := do
  let reset : Vecs F :=
    { size := (collectionSize Namespace).Reset vecs.size,
      objectCount := (collectionObjectCount Namespace).Reset vecs.objectCount,
      avgObjSize := (collectionAvgObjSize Namespace).Reset vecs.avgObjSize,
      storageSize := (collectionStorageSize Namespace).Reset vecs.storageSize,
      indexes := (collectionIndexes Namespace).Reset vecs.indexes,
      indexesSize := (collectionIndexesSize Namespace).Reset vecs.indexesSize,
      indexSize := (collectionIndexSize Namespace).Reset vecs.indexSize }
  let st ← collStatList.Members.foldlM (exportMember Namespace float64) reset
  pure (st,
    (collectionSize Namespace).Collect st.size
      ++ (collectionObjectCount Namespace).Collect st.objectCount
      ++ (collectionAvgObjSize Namespace).Collect st.avgObjSize
      ++ (collectionStorageSize Namespace).Collect st.storageSize
      ++ (collectionIndexes Namespace).Collect st.indexes
      ++ (collectionIndexesSize Namespace).Collect st.indexesSize
      ++ (collectionIndexSize Namespace).Collect st.indexSize)

/-- The method `CollectionStatList.Describe`: the descriptors sent on `ch`. -/
def Describe (Namespace : String) : List Desc :=
  (collectionSize Namespace).Describe
    ++ (collectionObjectCount Namespace).Describe
    ++ (collectionAvgObjSize Namespace).Describe
    ++ (collectionStorageSize Namespace).Describe
    ++ (collectionIndexes Namespace).Describe
    ++ (collectionIndexesSize Namespace).Describe

/-- The label values under which `Export` files the six per-collection gauges of a member. -/
def memberKey {F : Type} (member : CollectionStatus F) : List GoString :=
  [member.Database, member.Name]

/-- The children `Export` sets in `collectionIndexSize` for a member, in the order
of `IndexSizes`. -/
def indexEntries {F : Type} (member : CollectionStatus F) : VecState F :=
  member.IndexSizes.map (fun e => ([member.Database, member.Name, e.1], e.2))

/-- The seven vectors after the loop of `Export` has run over `members` from `st`,
each vector written as a sequence of `set`s. -/
def afterMembers {F : Type} (float64 : Int → F) (members : List (CollectionStatus F))
    (st : Vecs F) : Vecs F :=
  { size := st.size.setAll (members.map (fun m => (memberKey m, float64 m.Size))),
    objectCount := st.objectCount.setAll (members.map (fun m => (memberKey m, float64 m.Count))),
    avgObjSize := st.avgObjSize.setAll (members.map (fun m => (memberKey m, float64 m.AvgObjSize))),
    storageSize :=
      st.storageSize.setAll (members.map (fun m => (memberKey m, float64 m.StorageSize))),
    indexes :=
      st.indexes.setAll (members.map (fun m => (memberKey m, float64 m.IndexSizes.length))),
    indexesSize :=
      st.indexesSize.setAll (members.map (fun m => (memberKey m, float64 m.IndexesSize))),
    indexSize := st.indexSize.setAll (members.flatMap indexEntries) }

/-- Every label value `Export` passes to `With` for `member` is valid UTF-8: its
`Database`, its `Name` and the keys of its `IndexSizes`. -/
def memberValid {F : Type} (member : CollectionStatus F) : Bool :=
  ValidString member.Database && ValidString member.Name
    && member.IndexSizes.all (fun e => ValidString e.1)

/-- The samples a call sends on `ch`: those of its result, none when it panics. -/
def samplesOf {F : Type} (r : Option (Vecs F × List (Sample F))) : List (Sample F) :=
  match r with
  | some (_, out) => out
  | none => []

/-- A list whose one member has a `Name` that is not valid UTF-8 (the bytes `c`,
`0xff`). -/
def invalidNameList : CollectionStatList Int :=
  { Members := [{ Database := GoString.ofString "d", Name := { bytes := [0x63, 0xff] },
                  Size := 0, Count := 0, AvgObjSize := 0, StorageSize := 0, IndexesSize := 0,
                  IndexSizes := [(GoString.ofString "i", 1)] }] }

/-- The seven vectors paired with their children, in the order `Export` collects them. -/
def parts {F : Type} (Namespace : String) (st : Vecs F) : List (GaugeVec × VecState F) :=
  [(collectionSize Namespace, st.size), (collectionObjectCount Namespace, st.objectCount),
   (collectionAvgObjSize Namespace, st.avgObjSize),
   (collectionStorageSize Namespace, st.storageSize), (collectionIndexes Namespace, st.indexes),
   (collectionIndexesSize Namespace, st.indexesSize),
   (collectionIndexSize Namespace, st.indexSize)]

/-- The seven vectors with no children, as at process start. -/
def Vecs.empty {F : Type} : Vecs F :=
  { size := [], objectCount := [], avgObjSize := [], storageSize := [], indexes := [],
    indexesSize := [], indexSize := [] }

/-- The seven vectors `Export` collects from: those set by the loop from empty
vectors. -/
def collected {F : Type} (float64 : Int → F) (collStatList : CollectionStatList F) : Vecs F :=
  afterMembers float64 collStatList.Members Vecs.empty

/-- The `index_size` sample specified for entry `e` of the `IndexSizes` of `member`. -/
def indexSizeSample {F : Type} (Namespace : String) (member : CollectionStatus F)
    (e : GoString × F) : Sample F :=
  { desc := (collectionIndexSize Namespace).desc,
    labelValues := [member.Database, member.Name, e.1], value := e.2,
    kind := ValueType.GaugeValue }

/-- The `indexes_size` sample specified for `member`. -/
def indexesSizeSample {F : Type} (Namespace : String) (float64 : Int → F)
    (member : CollectionStatus F) : Sample F :=
  { desc := (collectionIndexesSize Namespace).desc,
    labelValues := [member.Database, member.Name], value := float64 member.IndexesSize,
    kind := ValueType.GaugeValue }

/-- The collection `shop.orders` with its two indexes. -/
def ordersStatus : CollectionStatus Int :=
  { Database := GoString.ofString "shop", Name := GoString.ofString "orders", Size := 100,
    Count := 4, AvgObjSize := 25, StorageSize := 4096, IndexesSize := 6144,
    IndexSizes := [(GoString.ofString "_id_", 4096), (GoString.ofString "name_1", 2048)] }

/-- A list with the one collection `shop.orders`. -/
def ordersList : CollectionStatList Int :=
  { Members := [ordersStatus] }

end Mongod

/-! ## `collector/mongos/connections.go` -/

namespace Mongos

/-- The gauge vector `connections`; the package constant `Namespace` is declared in
another file and is a parameter. -/
def connections (Namespace : String) : GaugeVec :=
  NewGaugeVec { Namespace := Namespace, Subsystem := "", Name := "connections",
                Help := "source = serverStatus connections.[current|available]" } ["state"]

/-- The descriptor `connectionsMetricsCreatedTotalDesc`. -/
def connectionsMetricsCreatedTotalDesc (Namespace : String) : Desc :=
  NewDesc (BuildFQName Namespace "connections_metrics" "created_total")
    "source = serverStatus connections.totalCreated" []

/-- The Go struct `ConnectionStats`. -/
structure ConnectionStats (F : Type) where
  Current : F
  Available : F
  TotalCreated : F

/-- The method `ConnectionStats.Export`: from the children of `connections` before
the call to its children after it and the samples sent on `ch`, in the order
sent; `none` would be a panic (the label values here are the literals
`current` and `available`, so there is none). -/
def Export {F : Type} (Namespace : String) (connectionStats : ConnectionStats F)
    (vec : VecState F) : Option (VecState F × List (Sample F)) := do
  let v1 ← (connections Namespace).WithLabelValuesSet [GoString.ofString "current"]
    connectionStats.Current vec
  let v2 ← (connections Namespace).WithLabelValuesSet [GoString.ofString "available"]
    connectionStats.Available v1
  let created ← MustNewConstMetric (connectionsMetricsCreatedTotalDesc Namespace)
    ValueType.CounterValue connectionStats.TotalCreated []
  pure (v2, (connections Namespace).Collect v2 ++ [created])

/-- The method `ConnectionStats.Describe`. -/
def Describe (Namespace : String) : List Desc :=
  (connections Namespace).Describe ++ [connectionsMetricsCreatedTotalDesc Namespace]

/-- The children of `connections` after the calls of `Export` made since process
start, in order; `Export` is the only code that touches the vector. -/
def afterExports {F : Type} (Namespace : String) (history : List (ConnectionStats F)) :
    Option (VecState F) :=
  history.foldlM (fun vec cs => (Export Namespace cs vec).map Prod.fst) []

/-- What the vector `connections` can hold: nothing, or the two children
`current` and `available`. -/
def VecInv {F : Type} (vec : VecState F) : Prop :=
  vec = [] ∨ ∃ c a, vec = [([GoString.ofString "current"], c), ([GoString.ofString "available"], a)]

/-- The three samples specified for `Export`. -/
def expectedSamples {F : Type} (Namespace : String) (connectionStats : ConnectionStats F) :
    List (Sample F) :=
  [{ desc := (connections Namespace).desc, labelValues := [GoString.ofString "current"],
     value := connectionStats.Current, kind := ValueType.GaugeValue },
   { desc := (connections Namespace).desc, labelValues := [GoString.ofString "available"],
     value := connectionStats.Available, kind := ValueType.GaugeValue },
   { desc := connectionsMetricsCreatedTotalDesc Namespace, labelValues := [],
     value := connectionStats.TotalCreated, kind := ValueType.CounterValue }]

end Mongos

/-! ## `exporter/replset_config_collector.go` -/

namespace Exporter

/-- A decoded BSON value, by the Go type it is decoded to: `bson.M`, `bson.A`,
the scalars, `nil`, and any other type under its Go type name. -/
inductive BsonValue where
  | M (fields : List (String × BsonValue))
  | A (elems : List BsonValue)
  | string (s : String)
  | int32 (n : Int)
  | int64 (n : Int)
  | bool (b : Bool)
  | null
  | other (goType : String)

/-- The type `bson.M`. -/
abbrev BsonM := List (String × BsonValue)

/-- The Go type name `%T` prints for `m[key]`; a missing key gives the `nil` interface. -/
def goTypeName : Option BsonValue → String
  | none => "<nil>"
  | some (.M _) => "primitive.M"
  | some (.A _) => "primitive.A"
  | some (.string _) => "string"
  | some (.int32 _) => "int32"
  | some (.int64 _) => "int64"
  | some (.bool _) => "bool"
  | some .null => "<nil>"
  | some (.other t) => t

/-- The error of `res.Decode(&m)`: a `mongo.CommandError` with its code, or any
other error. -/
inductive DecodeError where
  | commandError (code : Int) (message : String)
  | other (message : String)
  deriving DecidableEq

/-- The method `Error()`. -/
def DecodeError.Error : DecodeError → String
  | .commandError _ message => message
  | .other message => message

/-- A command sent to the server: the database and the command document. -/
structure Command where
  db : String
  cmd : List (String × String)
  deriving DecidableEq

/-- A call on the logger: `Errorf` with its format and its rendered argument, or a
call at debug level. -/
inductive LogEntry where
  | errorf (format : String) (arg : String)
  | debug (msg : String)
  deriving DecidableEq

/-- The entries logged at error level. -/
def errorsOf (log : List LogEntry) : List LogEntry :=
  log.filter (fun e => match e with
    | .errorf _ _ => true
    | .debug _ => false)

/-- The rest of package `exporter` that `Collect` uses and that is declared in
files not among the sources: the two error codes (in this file only inside a
comment), `makeMetrics` and `debugResult`.  They are parameters. -/
structure Package (F : Type) where
  replicationNotEnabled : Int
  replicationNotYetInitialized : Int
  makeMetrics : String → BsonM → List (String × String) → Bool → List (Sample F)
  debugResult : BsonM → List LogEntry

/-- The struct `replSetGetConfigCollector`: `client` answers
`RunCommand(...).Decode(&m)`, `baseLabels` is `topologyInfo.baseLabels()`; the
context and the logger are effects. -/
structure replSetGetConfigCollector where
  client : Command → Except DecodeError BsonM
  compatibleMode : Bool
  baseLabels : List (String × String)

/-- What a call of `Collect` does: commands sent, logger calls, metrics sent on `ch`. -/
structure Outcome (F : Type) where
  commands : List Command
  log : List LogEntry
  metrics : List (Sample F)

/-- What a call of `Describe` does: commands sent, logger calls, descriptors sent on `ch`. -/
structure DescribeOutcome where
  commands : List Command
  log : List LogEntry
  descs : List Desc
  deriving DecidableEq

/-- The command `bson.D{{Key: "replSetGetConfig", Value: "1"}}` run on `admin`. -/
def replSetGetConfigCmd : Command :=
  { db := "admin", cmd := [("replSetGetConfig", "1")] }

/-- The method `replSetGetConfigCollector.Collect`. -/
def Collect {F : Type} (pkg : Package F) (d : replSetGetConfigCollector) : Outcome F :=
  let cmd := replSetGetConfigCmd
  match d.client cmd with
  | .error err =>
    let logged : Outcome F :=
      { commands := [cmd],
        log := [LogEntry.errorf "cannot get replSetGetConfig: %s" err.Error], metrics := [] }
    match err with
    | .commandError code _ =>
      if code = pkg.replicationNotYetInitialized ∨ code = pkg.replicationNotEnabled then
        { commands := [cmd], log := [], metrics := [] }
      else logged
    | .other _ => logged
  | .ok m =>
    match m.lookup "config" with
    | some (.M config) =>
      { commands := [cmd],
        log := LogEntry.debug "replSetGetConfig result:" :: pkg.debugResult config,
        metrics := pkg.makeMetrics "cfg" config d.baseLabels d.compatibleMode }
    | v =>
      { commands := [cmd],
        log := [LogEntry.errorf "cannot decode getDiagnosticData: %s"
                  (goTypeName v ++ " for data field: unexpected data type")],
        metrics := [] }

/-- The function `prometheus.DescribeByCollect`: runs the collector's `Collect` and
sends the descriptor of every metric collected. -/
def DescribeByCollect {F : Type} (collect : Outcome F) : DescribeOutcome :=
  { commands := collect.commands, log := collect.log,
    descs := collect.metrics.map (fun s => s.desc) }

/-- The method `replSetGetConfigCollector.Describe`. -/
def Describe {F : Type} (pkg : Package F) (d : replSetGetConfigCollector) : DescribeOutcome :=
  DescribeByCollect (Collect pkg d)

/-- The error is one of the two benign command errors. -/
def Benign {F : Type} (pkg : Package F) : DecodeError → Prop
  | .commandError code _ =>
    code = pkg.replicationNotYetInitialized ∨ code = pkg.replicationNotEnabled
  | .other _ => False

/-- An instance of `Package` to evaluate the code on concrete inputs (the package
members themselves stay parameters of every general statement): the codes as
in the comment of the file, one gauge per `int64` field of the document, no
debug output. -/
def examplePackage : Package Int where
  replicationNotEnabled := 76
  replicationNotYetInitialized := 94
  makeMetrics := fun pfx m _ _ =>
    m.filterMap (fun kv => match kv.2 with
      | .int64 n => some { desc := NewDesc (pfx ++ "_" ++ kv.1) "" [], labelValues := [],
                           value := n, kind := ValueType.GaugeValue }
      | _ => none)
  debugResult := fun _ => []

/-- A collector whose command always ends the same way. -/
def collectorAnswering (res : Except DecodeError BsonM) : replSetGetConfigCollector :=
  { client := fun _ => res, compatibleMode := false, baseLabels := [] }

end Exporter

/-! # Theorems -/

/-! ### Go strings -/

/-- The literal encoder and `ValidString` on known cases: encoded literals of one
to four bytes per character are valid; a lone `0xff`, a lone continuation byte,
an overlong encoding, an encoded surrogate, a truncated sequence and a code
point above `U+10FFFF` are not. -/
theorem validString_cases :
    (GoString.ofString "é€𝄞").bytes = [0xC3, 0xA9, 0xE2, 0x82, 0xAC, 0xF0, 0x9D, 0x84, 0x9E]
    ∧ ValidString (GoString.ofString "shop.orders é€𝄞") = true
    ∧ ValidString { bytes := [0x63, 0xff] } = false
    ∧ ValidString { bytes := [0x80] } = false
    ∧ ValidString { bytes := [0xC0, 0x80] } = false
    ∧ ValidString { bytes := [0xED, 0xA0, 0x80] } = false
    ∧ ValidString { bytes := [0xE2, 0x82] } = false
    ∧ ValidString { bytes := [0xF4, 0x90, 0x80, 0x80] } = false := by
  decide

theorem attemptsOf_append (k : GoString) (t u : List Event) :
    attemptsOf k (t ++ u) = attemptsOf k t ++ attemptsOf k u := by
  simp [attemptsOf]

theorem warnsOf_append (k : GoString) (t u : List Event) :
    warnsOf k (t ++ u) = warnsOf k t ++ warnsOf k u := by
  simp [warnsOf]

theorem ledgerInv_init (k : GoString) (s0 : List GoString) :
    LedgerInv k s0 { logSuppressCS := s0, events := [] } := by
  simp [LedgerInv, attemptsOf, warnsOf]

theorem ledgerInv_fail (k : GoString) (s0 : List GoString) (st : LogState) (key : GoString) (msg : String)
    (h : LedgerInv k s0 st) : LedgerInv k s0 ((st.fetched key false).warnOnce key msg) := by
  unfold LedgerInv at h ⊢
  by_cases hk : key = k
  · subst hk
    by_cases hm : key ∈ st.logSuppressCS
    · simp only [LogState.warnOnce, LogState.fetched, hm, if_true, attemptsOf_append,
        warnsOf_append, List.foldl_append, ← h]
      simp [attemptsOf, warnsOf, ledgerStep, hm]
    · simp only [LogState.warnOnce, LogState.fetched, hm, if_false, attemptsOf_append,
        warnsOf_append, List.foldl_append, ← h]
      simp [attemptsOf, warnsOf, ledgerStep, hm]
  · have hk' : ¬ k = key := fun e => hk e.symm
    by_cases hm : key ∈ st.logSuppressCS
    · simp only [LogState.warnOnce, LogState.fetched, hm, if_true, attemptsOf_append,
        warnsOf_append, List.foldl_append, ← h]
      simp [attemptsOf, warnsOf, hk]
    · simp only [LogState.warnOnce, LogState.fetched, hm, if_false, attemptsOf_append,
        warnsOf_append, List.foldl_append, ← h]
      simp [attemptsOf, warnsOf, hk, hk']

theorem ledgerInv_ok (k : GoString) (s0 : List GoString) (st : LogState) (key : GoString)
    (h : LedgerInv k s0 st) : LedgerInv k s0 ((st.fetched key true).delete key) := by
  unfold LedgerInv at h ⊢
  by_cases hk : key = k
  · subst hk
    simp only [LogState.delete, LogState.fetched, attemptsOf_append,
        warnsOf_append, List.foldl_append, ← h]
    simp [attemptsOf, warnsOf, ledgerStep, List.mem_filter]
  · have hk' : ¬ k = key := fun e => hk e.symm
    simp only [LogState.delete, LogState.fetched, attemptsOf_append,
        warnsOf_append, List.foldl_append, ← h]
    simp [attemptsOf, warnsOf, hk, hk', List.mem_filter]

theorem ledgerInv_collStep {F : Type} (cm : Common) (client : Client F) (dbName : GoString)
    (k : GoString) (s0 : List GoString) (acc : LogState × List (CollectionStatus F)) (collName : GoString)
    (h : LedgerInv k s0 acc.1) : LedgerInv k s0 (collStep cm client dbName acc collName).1 := by
  unfold collStep
  split
  · exact h
  · dsimp only
    split
    · exact ledgerInv_fail k s0 _ _ _ h
    · exact ledgerInv_ok k s0 _ _ h

theorem ledgerInv_collFold {F : Type} (cm : Common) (client : Client F) (dbName : GoString)
    (k : GoString) (s0 : List GoString) (collNames : List GoString) :
    ∀ acc : LogState × List (CollectionStatus F), LedgerInv k s0 acc.1 →
      LedgerInv k s0 (collNames.foldl (collStep cm client dbName) acc).1 := by
  induction collNames with
  | nil => intro acc h; exact h
  | cons c cs ih =>
    intro acc h
    exact ih _ (ledgerInv_collStep cm client dbName k s0 acc c h)

theorem ledgerInv_dbStep {F : Type} (cm : Common) (client : Client F)
    (k : GoString) (s0 : List GoString) (acc : LogState × List (CollectionStatus F)) (dbName : GoString)
    (h : LedgerInv k s0 acc.1) : LedgerInv k s0 (dbStep cm client acc dbName).1 := by
  unfold dbStep
  split
  · exact h
  · split
    · exact ledgerInv_fail k s0 _ _ _ h
    · exact ledgerInv_collFold cm client dbName k s0 _ _ (ledgerInv_ok k s0 _ _ h)

theorem ledgerInv_dbFold {F : Type} (cm : Common) (client : Client F)
    (k : GoString) (s0 : List GoString) (dbNames : List GoString) :
    ∀ acc : LogState × List (CollectionStatus F), LedgerInv k s0 acc.1 →
      LedgerInv k s0 (dbNames.foldl (dbStep cm client) acc).1 := by
  induction dbNames with
  | nil => intro acc h; exact h
  | cons d ds ih =>
    intro acc h
    exact ih _ (ledgerInv_dbStep cm client k s0 acc d h)

/-- Seen from any key, a call of `GetCollectionStatList` acts on the ledger as the
sequence of its attempts for that key does. -/
theorem ledgerInv_call {F : Type} (cm : Common) (client : Client F) (k : GoString) (s0 : List GoString) :
    LedgerInv k s0 (GetCollectionStatList cm client s0).2 := by
  unfold GetCollectionStatList
  dsimp only
  split
  · exact ledgerInv_fail k s0 _ _ _ (ledgerInv_init k s0)
  · exact ledgerInv_dbFold cm client k s0 _ _ (ledgerInv_ok k s0 _ _ (ledgerInv_init k s0))

theorem foldl_ledgerStep_allFalse (l : List Bool) (hne : l ≠ []) (hall : ∀ ok ∈ l, ok = false)
    (b : Bool) (n : Nat) :
    l.foldl ledgerStep (b, n) = (true, if b then n else n + 1) := by
  induction l generalizing b n with
  | nil => exact absurd rfl hne
  | cons a r ih =>
    have ha : a = false := hall a (List.mem_cons_self _ _)
    subst ha
    by_cases hr : r = []
    · subst hr; simp [ledgerStep]
    · rw [List.foldl_cons, show ledgerStep (b, n) false = (true, if b then n else n + 1) from rfl]
      rw [ih hr (fun ok hok => hall ok (List.mem_cons_of_mem _ hok))]
      simp

theorem foldl_ledgerStep_last (l : List Bool) (s : Bool × Nat) :
    (l.foldl ledgerStep s).1 = (match l.getLast? with | some ok => !ok | none => s.1) := by
  induction l using List.reverseRecOn with
  | nil => simp
  | append_singleton r a _ =>
    cases a <;> simp [List.foldl_append, List.getLast?_append, ledgerStep]

/-! ### Members returned by `GetCollectionStatList` -/

/-- The entries the inner loop appends for database `d`. -/
theorem collFold_members {F : Type} (cm : Common) (client : Client F) (d : GoString)
    (collNames : List GoString) :
    ∀ acc : LogState × List (CollectionStatus F),
      (collNames.foldl (collStep cm client d) acc).2
        = acc.2 ++ (collNames.filter (fun c => !cm.IsSystemCollection c)).filterMap (fun c =>
            match client.collStats d c with
            | .error _ => none
            | .ok s => some { s with Database := d, Name := c }) := by
  induction collNames with
  | nil => intro acc; simp
  | cons c cs ih =>
    intro acc
    rw [List.foldl_cons, ih]
    unfold collStep
    by_cases hs : cm.IsSystemCollection c = true
    · simp [hs]
    · simp only [hs, Bool.false_eq_true, if_false]
      cases hc : client.collStats d c with
      | error e => simp [hs, hc]
      | ok st => simp [hs, hc]

theorem dbFold_members {F : Type} (cm : Common) (client : Client F) (dbNames : List GoString) :
    ∀ acc : LogState × List (CollectionStatus F),
      (dbNames.foldl (dbStep cm client) acc).2 = acc.2 ++ expectedMembers cm client dbNames := by
  induction dbNames with
  | nil => intro acc; simp [expectedMembers]
  | cons d ds ih =>
    intro acc
    rw [List.foldl_cons, ih]
    unfold dbStep
    by_cases hs : cm.IsSystemDB d = true
    · simp [hs, expectedMembers]
    · simp only [hs, Bool.false_eq_true, if_false]
      cases hc : client.ListCollectionNames d with
      | error e => simp [hs, hc, expectedMembers]
      | ok colls =>
        simp only [collFold_members]
        simp [hs, hc, expectedMembers]

theorem call_members {F : Type} (cm : Common) (client : Client F) (s0 : List GoString)
    (dbNames : List GoString) (h : client.ListDatabaseNames = .ok dbNames) :
    (GetCollectionStatList cm client s0).1 = some { Members := expectedMembers cm client dbNames } := by
  unfold GetCollectionStatList
  simp only [h, dbFold_members]
  simp

theorem expectedMembers_failDatabase {F : Type} (cm : Common) (client : Client F) (d : GoString) (err : String)
    (dbNames : List GoString) :
    expectedMembers cm (client.failDatabase d err) dbNames
      = (expectedMembers cm client dbNames).filter (fun m => decide (m.Database ≠ d)) := by
  unfold expectedMembers
  induction dbNames with
  | nil => simp
  | cons x xs ih =>
    by_cases hs : cm.IsSystemDB x = true
    · simpa [List.filter_cons, hs] using ih
    · simp only [List.filter_cons, hs, Bool.not_false, Bool.not_eq_true, if_true,
        List.flatMap_cons, List.filter_append] at ih ⊢
      rw [ih]
      congr 1
      by_cases hx : x = d
      · subst hx
        simp only [Client.failDatabase, if_true]
        symm
        rw [List.filter_eq_nil_iff]
        intro m hm
        cases hc : client.ListCollectionNames x with
        | error e => simp [hc] at hm
        | ok colls =>
          simp only [hc, List.mem_filterMap] at hm
          obtain ⟨c, _, hc2⟩ := hm
          cases hst : client.collStats x c with
          | error e => simp [hst] at hc2
          | ok st => simp [hst] at hc2; simp [← hc2]
      · simp only [Client.failDatabase, hx, if_false]
        symm
        rw [List.filter_eq_self]
        intro m hm
        cases hc : client.ListCollectionNames x with
        | error e => simp [hc] at hm
        | ok colls =>
          simp only [hc, List.mem_filterMap] at hm
          obtain ⟨c, _, hc2⟩ := hm
          cases hst : client.collStats x c with
          | error e => simp [hst] at hc2
          | ok st => simp [hst] at hc2; simp [← hc2, hx]

theorem expectedMembers_failCollection {F : Type} (cm : Common) (client : Client F)
    (d c : GoString) (err : String) (dbNames : List GoString) :
    expectedMembers cm (client.failCollection d c err) dbNames
      = (expectedMembers cm client dbNames).filter
          (fun m => decide (¬ (m.Database = d ∧ m.Name = c))) := by
  unfold expectedMembers
  induction dbNames with
  | nil => simp
  | cons x xs ih =>
    by_cases hs : cm.IsSystemDB x = true
    · simpa [List.filter_cons, hs] using ih
    · simp only [List.filter_cons, hs, Bool.not_false, Bool.not_eq_true, if_true,
        List.flatMap_cons, List.filter_append] at ih ⊢
      rw [ih]
      congr 1
      show (match client.ListCollectionNames x with
            | .error _ => []
            | .ok collNames => _) = _
      cases hc : client.ListCollectionNames x with
      | error e => simp
      | ok colls =>
        simp only [List.filter_filterMap]
        apply List.filterMap_congr
        intro c' _
        by_cases hx : x = d ∧ c' = c
        · obtain ⟨rfl, rfl⟩ := hx
          simp only [Client.failCollection, and_self, if_true]
          cases hst : client.collStats x c' with
          | error e => simp
          | ok st => simp [Option.filter]
        · simp only [Client.failCollection, hx, if_false]
          cases hst : client.collStats x c' with
          | error e => simp
          | ok st =>
            simp only [Option.filter]
            have : ¬ (x = d ∧ c' = c) := hx
            simp [this]

/-! ### Claims on `GetCollectionStatList` -/

/-- C1: for every key `k` and two consecutive calls of `GetCollectionStatList` (the
second starts from the `logSuppressCS` the first leaves) in both of which the
fetch guarded by `k` is attempted and fails, the second call logs no warning
under `k`, the first logs exactly one when `k` was not in `logSuppressCS`
before it, and none when it was. -/
theorem getCollectionStatList_warns_once {F : Type} (cm : Common) (client₁ client₂ : Client F)
    (k : GoString) (s0 : List GoString)
    (h₁ : FailsIn k (GetCollectionStatList cm client₁ s0).2.events)
    (h₂ : FailsIn k (GetCollectionStatList cm client₂
            (GetCollectionStatList cm client₁ s0).2.logSuppressCS).2.events) :
    warnsOf k (GetCollectionStatList cm client₂
        (GetCollectionStatList cm client₁ s0).2.logSuppressCS).2.events = []
    ∧ (k ∉ s0 → (warnsOf k (GetCollectionStatList cm client₁ s0).2.events).length = 1)
    ∧ (k ∈ s0 → warnsOf k (GetCollectionStatList cm client₁ s0).2.events = []) := by
  have i₁ := ledgerInv_call cm client₁ k s0
  have i₂ := ledgerInv_call cm client₂ k (GetCollectionStatList cm client₁ s0).2.logSuppressCS
  unfold LedgerInv at i₁ i₂
  rw [foldl_ledgerStep_allFalse _ h₁.1 h₁.2] at i₁
  rw [foldl_ledgerStep_allFalse _ h₂.1 h₂.2] at i₂
  have m₁ : k ∈ (GetCollectionStatList cm client₁ s0).2.logSuppressCS := by
    have := congrArg Prod.fst i₁
    simpa using this
  have w₁ := congrArg Prod.snd i₁
  have w₂ := congrArg Prod.snd i₂
  simp only [m₁, decide_True, if_true] at w₂
  refine ⟨List.length_eq_zero.mp w₂, ?_, ?_⟩
  · intro hk
    simpa [hk] using w₁
  · intro hk
    apply List.length_eq_zero.mp
    simpa [hk] using w₁

/-- C1, at a concrete input: `collStats` of `shop.carts` fails in two consecutive
calls starting from an empty `logSuppressCS`. -/
theorem getCollectionStatList_warns_once_witness :
    warnsOf (GoString.ofString "shop.carts") (GetCollectionStatList exampleCommon shopClient
        (GetCollectionStatList exampleCommon shopClient []).2.logSuppressCS).2.events = []
    ∧ (GoString.ofString "shop.carts" ∉ ([] : List GoString) →
        (warnsOf (GoString.ofString "shop.carts")
          (GetCollectionStatList exampleCommon shopClient []).2.events).length = 1)
    ∧ (GoString.ofString "shop.carts" ∈ ([] : List GoString) →
        warnsOf (GoString.ofString "shop.carts")
          (GetCollectionStatList exampleCommon shopClient []).2.events = []) :=
  getCollectionStatList_warns_once exampleCommon shopClient shopClient
    (GoString.ofString "shop.carts") [] (by decide) (by decide)

/-- C2, as stated, fails: starting from an empty `logSuppressCS`, four calls in
which the server-wide fetch (key `keyCS`) fails, fails, succeeds and fails.  The
last three calls are three successive calls in which the scope fails, then
succeeds, then fails, and the first of these three logs no warning. -/
theorem three_calls_first_failure_silent :
    FailsIn keyCS (GetCollectionStatList exampleCommon downClient
        (GetCollectionStatList exampleCommon downClient []).2.logSuppressCS).2.events
    ∧ SucceedsIn keyCS (GetCollectionStatList exampleCommon emptyClient
        (GetCollectionStatList exampleCommon downClient
          (GetCollectionStatList exampleCommon downClient []).2.logSuppressCS).2.logSuppressCS).2.events
    ∧ FailsIn keyCS (GetCollectionStatList exampleCommon downClient
        (GetCollectionStatList exampleCommon emptyClient
          (GetCollectionStatList exampleCommon downClient
            (GetCollectionStatList exampleCommon downClient []).2.logSuppressCS).2.logSuppressCS).2.logSuppressCS).2.events
    ∧ (GetCollectionStatList exampleCommon downClient []).2.logSuppressCS = [keyCS]
    ∧ (GetCollectionStatList exampleCommon downClient
        (GetCollectionStatList exampleCommon downClient []).2.logSuppressCS).2.events
          = [Event.fetch keyCS false] := by
  decide

/-- C2, amended: after a call of `GetCollectionStatList`, a key whose fetch was
attempted in the call is in `logSuppressCS` if and only if the last attempt of
that fetch in the call failed; and for three successive calls in which the
scope fails, then succeeds, then fails, exactly one warning is logged on the
second failing call, while the first failing call logs one exactly when the key
was not in `logSuppressCS` before it. -/
theorem getCollectionStatList_ledger_self_healing {F : Type} (cm : Common)
    (client₁ client₂ client₃ : Client F) (k : GoString) (s0 : List GoString) :
    (attemptsOf k (GetCollectionStatList cm client₁ s0).2.events ≠ [] →
      (k ∈ (GetCollectionStatList cm client₁ s0).2.logSuppressCS ↔
        (attemptsOf k (GetCollectionStatList cm client₁ s0).2.events).getLast? = some false))
    ∧ (FailsIn k (GetCollectionStatList cm client₁ s0).2.events →
       SucceedsIn k (GetCollectionStatList cm client₂
          (GetCollectionStatList cm client₁ s0).2.logSuppressCS).2.events →
       FailsIn k (GetCollectionStatList cm client₃
          (GetCollectionStatList cm client₂
            (GetCollectionStatList cm client₁ s0).2.logSuppressCS).2.logSuppressCS).2.events →
       (warnsOf k (GetCollectionStatList cm client₃
          (GetCollectionStatList cm client₂
            (GetCollectionStatList cm client₁ s0).2.logSuppressCS).2.logSuppressCS).2.events).length = 1
       ∧ (warnsOf k (GetCollectionStatList cm client₁ s0).2.events).length
            = if k ∈ s0 then 0 else 1) := by
  constructor
  · intro hne
    have i₁ := congrArg Prod.fst (ledgerInv_call cm client₁ k s0)
    rw [foldl_ledgerStep_last] at i₁
    cases hl : (attemptsOf k (GetCollectionStatList cm client₁ s0).2.events).getLast? with
    | none => exact absurd (List.getLast?_eq_none_iff.mp hl) hne
    | some ok =>
      rw [hl] at i₁
      cases ok <;> simpa using i₁
  · intro h₁ h₂ h₃
    have i₁ := ledgerInv_call cm client₁ k s0
    have i₂ := congrArg Prod.fst
      (ledgerInv_call cm client₂ k (GetCollectionStatList cm client₁ s0).2.logSuppressCS)
    have i₃ := ledgerInv_call cm client₃ k (GetCollectionStatList cm client₂
      (GetCollectionStatList cm client₁ s0).2.logSuppressCS).2.logSuppressCS
    unfold LedgerInv at i₁ i₃
    rw [foldl_ledgerStep_allFalse _ h₁.1 h₁.2] at i₁
    rw [foldl_ledgerStep_allFalse _ h₃.1 h₃.2] at i₃
    rw [foldl_ledgerStep_last] at i₂
    have hlast : (attemptsOf k (GetCollectionStatList cm client₂
        (GetCollectionStatList cm client₁ s0).2.logSuppressCS).2.events).getLast? = some true := by
      cases hl : (attemptsOf k (GetCollectionStatList cm client₂
          (GetCollectionStatList cm client₁ s0).2.logSuppressCS).2.events).getLast? with
      | none => exact absurd (List.getLast?_eq_none_iff.mp hl) h₂.1
      | some ok => rw [h₂.2 ok (List.mem_of_getLast?_eq_some hl)]
    rw [hlast] at i₂
    have m₂ : k ∉ (GetCollectionStatList cm client₂
        (GetCollectionStatList cm client₁ s0).2.logSuppressCS).2.logSuppressCS := by
      simpa using i₂
    have w₁ := congrArg Prod.snd i₁
    have w₃ := congrArg Prod.snd i₃
    refine ⟨?_, ?_⟩
    · simpa [m₂] using w₃
    · by_cases hk : k ∈ s0 <;> simpa [hk] using w₁

/-- C2 amended, at a concrete input: the server-wide fetch fails, succeeds and
fails on three calls starting from an empty `logSuppressCS`. -/
theorem getCollectionStatList_ledger_self_healing_witness :
    (keyCS ∈ (GetCollectionStatList exampleCommon downClient []).2.logSuppressCS ↔
      (attemptsOf keyCS (GetCollectionStatList exampleCommon downClient []).2.events).getLast?
        = some false)
    ∧ (warnsOf keyCS (GetCollectionStatList exampleCommon downClient
          (GetCollectionStatList exampleCommon emptyClient
            (GetCollectionStatList exampleCommon downClient []).2.logSuppressCS).2.logSuppressCS).2.events).length = 1
    ∧ (warnsOf keyCS (GetCollectionStatList exampleCommon downClient []).2.events).length
          = if keyCS ∈ ([] : List GoString) then 0 else 1 :=
  ⟨(getCollectionStatList_ledger_self_healing exampleCommon downClient emptyClient downClient
      keyCS []).1 (by decide),
   (getCollectionStatList_ledger_self_healing exampleCommon downClient emptyClient downClient
      keyCS []).2 (by decide) (by decide) (by decide)⟩

/-- C3: when listing the database names succeeds, `GetCollectionStatList` returns
a list whose `Members` are, in listing order, one entry for each collection
that is not a system collection, lies in a database that is not a system
database, and whose collection listing and `collStats` succeed, with `Database`
and `Name` set to that database and collection; making the listing of one
database fail removes exactly the entries of that database, and making
`collStats` of one collection fail removes exactly the entries of that
collection. -/
theorem getCollectionStatList_members {F : Type} (cm : Common) (client : Client F)
    (s0 : List GoString) (dbNames : List GoString) (h : client.ListDatabaseNames = .ok dbNames) :
    (GetCollectionStatList cm client s0).1 = some { Members := expectedMembers cm client dbNames }
    ∧ (∀ d err, (GetCollectionStatList cm (client.failDatabase d err) s0).1
        = some { Members := (expectedMembers cm client dbNames).filter
                  (fun m => decide (m.Database ≠ d)) })
    ∧ (∀ d c err, (GetCollectionStatList cm (client.failCollection d c err) s0).1
        = some { Members := (expectedMembers cm client dbNames).filter
                  (fun m => decide (¬ (m.Database = d ∧ m.Name = c))) }) := by
  refine ⟨call_members cm client s0 dbNames h, ?_, ?_⟩
  · intro d err
    rw [call_members cm (client.failDatabase d err) s0 dbNames h, expectedMembers_failDatabase]
  · intro d c err
    rw [call_members cm (client.failCollection d c err) s0 dbNames h,
      expectedMembers_failCollection]

/-- C3, at a concrete input: the server `shopClient`, whose database listing is
`admin`, `shop`. -/
theorem getCollectionStatList_members_witness :
    shopClient.ListDatabaseNames = .ok [GoString.ofString "admin", GoString.ofString "shop"]
    ∧ (GetCollectionStatList exampleCommon shopClient []).1
        = some { Members := expectedMembers exampleCommon shopClient
                  [GoString.ofString "admin", GoString.ofString "shop"] }
    ∧ (expectedMembers exampleCommon shopClient
          [GoString.ofString "admin", GoString.ofString "shop"]).map
        (fun m => (m.Database, m.Name))
          = [(GoString.ofString "shop", GoString.ofString "orders")] :=
  ⟨rfl, (getCollectionStatList_members exampleCommon shopClient []
      [GoString.ofString "admin", GoString.ofString "shop"] rfl).1,
   by decide⟩

/-! ### Gauge vectors -/

theorem VecState.setAll_nil {F : Type} (m : VecState F) : m.setAll [] = m := rfl

theorem VecState.setAll_cons {F : Type} (m : VecState F) (kv : List GoString × F)
    (kvs : List (List GoString × F)) : m.setAll (kv :: kvs) = (m.set kv.1 kv.2).setAll kvs := rfl

theorem VecState.setAll_append {F : Type} (m : VecState F) (a b : List (List GoString × F)) :
    m.setAll (a ++ b) = (m.setAll a).setAll b := by
  simp [VecState.setAll, List.foldl_append]

theorem VecState.mem_set {F : Type} (m : VecState F) (k : List GoString) (x : F)
    (e : List GoString × F) : e ∈ m.set k x ↔ (e ∈ m ∧ e.1 ≠ k) ∨ e = (k, x) := by
  simp [VecState.set, List.mem_filter]

theorem VecState.keys_set {F : Type} (m : VecState F) (k : List GoString) (x : F) :
    (m.set k x).map Prod.fst = (m.map Prod.fst).filter (fun k' => k' ≠ k) ++ [k] := by
  simp [VecState.set, List.filter_map, Function.comp_def]

theorem VecState.nodup_keys_set {F : Type} (m : VecState F) (k : List GoString) (x : F)
    (h : (m.map Prod.fst).Nodup) : ((m.set k x).map Prod.fst).Nodup := by
  rw [VecState.keys_set]
  apply List.Nodup.append (h.filter _) (List.nodup_singleton k)
  intro a ha hk
  exact of_decide_eq_true (List.mem_filter.mp ha).2 (List.mem_singleton.mp hk)

theorem VecState.nodup_keys_setAll {F : Type} (kvs : List (List GoString × F)) :
    ∀ m : VecState F, (m.map Prod.fst).Nodup → ((m.setAll kvs).map Prod.fst).Nodup := by
  induction kvs with
  | nil => intro m h; exact h
  | cons kv kvs ih => intro m h; exact ih _ (VecState.nodup_keys_set m kv.1 kv.2 h)

theorem VecState.mem_setAll {F : Type} (kvs : List (List GoString × F)) :
    ∀ (m : VecState F) (e : List GoString × F), e ∈ m.setAll kvs → e ∈ m ∨ e ∈ kvs := by
  induction kvs with
  | nil => intro m e h; exact Or.inl h
  | cons kv kvs ih =>
    intro m e h
    rcases ih _ e h with h' | h'
    · rcases (VecState.mem_set m kv.1 kv.2 e).mp h' with h'' | h''
      · exact Or.inl h''.1
      · exact Or.inr (by rw [h'']; exact List.mem_cons_self _ _)
    · exact Or.inr (List.mem_cons_of_mem _ h')

theorem VecState.set_of_not_mem {F : Type} (m : VecState F) (k : List GoString) (x : F)
    (h : k ∉ m.map Prod.fst) : m.set k x = m ++ [(k, x)] := by
  unfold VecState.set
  congr 1
  rw [List.filter_eq_self]
  intro e he
  have : e.1 ≠ k := fun hk => h (hk ▸ List.mem_map_of_mem Prod.fst he)
  simpa using this

/-- Setting pairwise distinct fresh keys appends the entries in order. -/
theorem VecState.setAll_of_nodup {F : Type} (kvs : List (List GoString × F)) :
    ∀ m : VecState F, (kvs.map Prod.fst).Nodup → (∀ k ∈ kvs.map Prod.fst, k ∉ m.map Prod.fst) →
      m.setAll kvs = m ++ kvs := by
  induction kvs with
  | nil => intro m _ _; simp [VecState.setAll]
  | cons kv kvs ih =>
    intro m hnd hdisj
    rw [VecState.setAll_cons, VecState.set_of_not_mem m kv.1 kv.2
      (hdisj kv.1 (List.mem_map_of_mem _ (List.mem_cons_self _ _)))]
    rw [List.map_cons, List.nodup_cons] at hnd
    rw [ih _ hnd.2]
    · simp
    · intro k hk
      simp only [List.map_append, List.map_cons, List.map_nil, List.mem_append,
        List.mem_singleton, not_or]
      refine ⟨hdisj k (List.mem_cons_of_mem _ hk), ?_⟩
      rintro rfl
      exact hnd.1 hk

namespace Mongod

/-! ### `Export` panics exactly on an invalid label value and else is a sequence of `set`s -/

/-- On a label map with exactly the keys `db` and `coll`, `With(...).Set` of a
vector declared over `db`, `coll` sets the child `[db, coll]` when both values
are valid UTF-8 and panics otherwise. -/
theorem withSet_db_coll {F : Type} (opts : GaugeOpts) (a b : GoString) (x : F) (m : VecState F) :
    (NewGaugeVec opts ["db", "coll"]).WithSet [("db", a), ("coll", b)] x m
      = if (ValidString a && ValidString b) = true then some (m.set [a, b] x) else none := by
  by_cases ha : ValidString a = true <;> by_cases hb : ValidString b = true <;>
    simp [GaugeVec.WithSet, GaugeVec.labelValues, NewGaugeVec, List.lookup, List.mapM,
      List.mapM.loop, ha, hb]

theorem withSet_db_coll_index {F : Type} (opts : GaugeOpts) (a b c : GoString) (x : F)
    (m : VecState F) :
    (NewGaugeVec opts ["db", "coll", "index"]).WithSet [("db", a), ("coll", b), ("index", c)] x m
      = if (ValidString a && ValidString b && ValidString c) = true then some (m.set [a, b, c] x)
        else none := by
  by_cases ha : ValidString a = true <;> by_cases hb : ValidString b = true <;>
    by_cases hc : ValidString c = true <;>
    simp [GaugeVec.WithSet, GaugeVec.labelValues, NewGaugeVec, List.lookup, List.mapM,
      List.mapM.loop, ha, hb, hc]

theorem foldlM_none {α β : Type} (f : β → α → Option β) (l : List α)
    (h : ∃ a ∈ l, ∀ b, f b a = none) : ∀ b, l.foldlM f b = none := by
  induction l with
  | nil => obtain ⟨a, ha, _⟩ := h; cases ha
  | cons x xs ih =>
    intro b
    rw [List.foldlM_cons]
    cases hx : f b x with
    | none => rfl
    | some b' =>
      obtain ⟨a, ha, hf⟩ := h
      rcases List.mem_cons.mp ha with rfl | ha'
      · rw [hf b] at hx; cases hx
      · exact ih ⟨a, ha', hf⟩ b'

theorem foldlM_indexSizes {F : Type} (Namespace : String) (d c : GoString)
    (hd : ValidString d = true) (hc : ValidString c = true) (ixs : List (GoString × F)) :
    ∀ m : VecState F,
      ixs.foldlM (fun acc e =>
        (collectionIndexSize Namespace).WithSet
          [("db", d), ("coll", c), ("index", e.1)] e.2 acc) m
      = if ixs.all (fun e => ValidString e.1) = true then
          some (m.setAll (ixs.map (fun e => ([d, c, e.1], e.2))))
        else none := by
  induction ixs with
  | nil => intro m; rfl
  | cons e es ih =>
    intro m
    rw [List.foldlM_cons, collectionIndexSize, withSet_db_coll_index]
    by_cases he : ValidString e.1 = true
    · simp only [hd, hc, he, Bool.and_self, if_true, Option.bind_eq_bind, Option.some_bind]
      rw [← collectionIndexSize, ih]
      simp only [List.all_cons, List.map_cons, VecState.setAll_cons, he, Bool.true_and]
    · simp [hd, hc, he]

theorem exportIndexSizes_eq {F : Type} (Namespace : String) (member : CollectionStatus F)
    (hd : ValidString member.Database = true) (hc : ValidString member.Name = true)
    (m : VecState F) :
    exportIndexSizes Namespace member m
      = if member.IndexSizes.all (fun e => ValidString e.1) = true then
          some (m.setAll (indexEntries member))
        else none :=
  foldlM_indexSizes Namespace member.Database member.Name hd hc member.IndexSizes m

theorem exportMember_eq {F : Type} (Namespace : String) (float64 : Int → F) (st : Vecs F)
    (member : CollectionStatus F) :
    exportMember Namespace float64 st member
      = if memberValid member = true then some (afterMembers float64 [member] st) else none := by
  unfold exportMember
  by_cases hd : ValidString member.Database = true
  · by_cases hc : ValidString member.Name = true
    · simp only [collectionSize, collectionObjectCount, collectionAvgObjSize,
        collectionStorageSize, collectionIndexes, collectionIndexesSize, withSet_db_coll,
        exportIndexSizes_eq Namespace member hd hc, hd, hc, Bool.and_self, if_true,
        Option.bind_eq_bind, Option.some_bind]
      by_cases hi : member.IndexSizes.all (fun e => ValidString e.1) = true
      · simp only [hi, if_true, Option.some_bind, memberValid, hd, hc, Bool.and_self]
        show some _ = some _
        congr 1
        simp [afterMembers, VecState.setAll_cons, VecState.setAll_nil, memberKey]
      · simp only [hi, memberValid, hd, hc, Bool.and_self, Bool.true_and]
        rfl
    · simp [collectionSize, withSet_db_coll, memberValid, hd, hc]
  · simp [collectionSize, withSet_db_coll, memberValid, hd]

theorem afterMembers_cons {F : Type} (float64 : Int → F) (member : CollectionStatus F)
    (members : List (CollectionStatus F)) (st : Vecs F) :
    afterMembers float64 (member :: members) st
      = afterMembers float64 members (afterMembers float64 [member] st) := by
  simp [afterMembers, VecState.setAll_cons, VecState.setAll_nil, VecState.setAll_append]

theorem foldlM_exportMember {F : Type} (Namespace : String) (float64 : Int → F)
    (members : List (CollectionStatus F)) :
    ∀ st : Vecs F,
      members.foldlM (exportMember Namespace float64) st
        = if members.all memberValid = true then some (afterMembers float64 members st)
          else none := by
  induction members with
  | nil => intro st; rfl
  | cons member members ih =>
    intro st
    rw [List.foldlM_cons, exportMember_eq]
    by_cases hm : memberValid member = true
    · simp only [hm, if_true, Option.bind_eq_bind, Option.some_bind, List.all_cons,
        Bool.true_and]
      rw [afterMembers_cons float64 member members st]
      exact ih _
    · simp [hm]

/-- The method `Export` panics exactly when some label value is not valid UTF-8,
and otherwise collects the seven vectors as set by the loop from empty
vectors, whatever they held before. -/
theorem export_eq {F : Type} (Namespace : String) (float64 : Int → F)
    (collStatList : CollectionStatList F) (vecs : Vecs F) :
    Export Namespace float64 collStatList vecs
      = if collStatList.Members.all memberValid = true then
          some (collected float64 collStatList,
            (parts Namespace (collected float64 collStatList)).flatMap
              (fun p => p.1.Collect p.2))
        else none := by
  unfold Export
  simp only [GaugeVec.Reset, foldlM_exportMember]
  by_cases hv : collStatList.Members.all memberValid = true
  · simp only [hv, if_true, Option.bind_eq_bind, Option.some_bind]
    show some _ = some _
    congr 1
    simp [parts, collected, Vecs.empty]
  · simp only [hv]
    rfl

end Mongod

/-! ### Metric names -/

theorem string_append_left_cancel (p a b : String) (h : p ++ a = p ++ b) : a = b := by
  have hd := congrArg String.data h
  rw [String.data_append, String.data_append] at hd
  exact String.ext (List.append_cancel_left hd)

/-- Within one namespace and subsystem, `BuildFQName` maps different non-empty
names to different fully qualified names. -/
theorem buildFQName_injective (ns subsystem a b : String) (ha : a ≠ "") (hb : b ≠ "")
    (h : BuildFQName ns subsystem a = BuildFQName ns subsystem b) : a = b := by
  unfold BuildFQName at h
  rw [if_neg ha, if_neg hb] at h
  split at h
  · exact string_append_left_cancel _ _ _ h
  · split at h
    · exact string_append_left_cancel _ _ _ h
    · split at h
      · exact string_append_left_cancel _ _ _ h
      · exact h

namespace Mongod

/-- The names of the seven gauge vectors, in the order `Export` collects them. -/
theorem fqNames_nodup (Namespace : String) :
    (["size", "count", "avgobjsize", "storage_size", "indexes", "indexes_size", "index_size"].map
      (BuildFQName Namespace "db_coll")).Nodup := by
  apply List.Nodup.map_on
  · intro a ha b hb h
    apply buildFQName_injective Namespace "db_coll" a b _ _ h
    · intro h0; subst h0; revert ha; decide
    · intro h0; subst h0; revert hb; decide
  · decide

end Mongod

/-! ### No series is emitted twice -/

theorem zip_right_injective (names : List String) (a b : List GoString) (ha : a.length = names.length)
    (hb : b.length = names.length) (h : names.zip a = names.zip b) : a = b := by
  have h₁ := List.map_snd_zip names a (le_of_eq ha)
  have h₂ := List.map_snd_zip names b (le_of_eq hb)
  rw [← h₁, ← h₂, h]

theorem collect_key_nodup {F : Type} (v : GaugeVec) (m : VecState F)
    (hnd : (m.map Prod.fst).Nodup)
    (hlen : ∀ e ∈ m, e.1.length = v.desc.variableLabels.length) :
    ((v.Collect m).map Sample.key).Nodup := by
  have e : (v.Collect m).map Sample.key
      = (m.map Prod.fst).map (fun k => (v.desc.fqName, v.desc.variableLabels.zip k)) := by
    simp [GaugeVec.Collect, Sample.key, Sample.name, Sample.labels, Function.comp_def]
  rw [e]
  apply List.Nodup.map_on _ hnd
  intro a ha b hb hab
  obtain ⟨ea, hea, rfl⟩ := List.mem_map.mp ha
  obtain ⟨eb, heb, rfl⟩ := List.mem_map.mp hb
  exact zip_right_injective _ _ _ (hlen ea hea) (hlen eb heb) (Prod.mk.inj hab).2

theorem collect_key_name {F : Type} (v : GaugeVec) (m : VecState F)
    (x : String × List (String × GoString)) (hx : x ∈ (v.Collect m).map Sample.key) :
    x.1 = v.desc.fqName := by
  obtain ⟨s, hs, rfl⟩ := List.mem_map.mp hx
  obtain ⟨e, _, rfl⟩ := List.mem_map.mp hs
  rfl

namespace Mongod

theorem parts_names {F : Type} (Namespace : String) (st : Vecs F) :
    (parts Namespace st).map (fun p => p.1.desc.fqName)
      = ["size", "count", "avgobjsize", "storage_size", "indexes", "indexes_size",
          "index_size"].map (BuildFQName Namespace "db_coll") := rfl

theorem parts_pairwise_disjoint {F : Type} (Namespace : String) (st : Vecs F) :
    (parts Namespace st).Pairwise (fun p q =>
      List.Disjoint ((p.1.Collect p.2).map Sample.key) ((q.1.Collect q.2).map Sample.key)) := by
  have h := fqNames_nodup Namespace
  rw [← parts_names Namespace st] at h
  have h' := List.pairwise_map.mp h
  refine h'.imp ?_
  intro p q hne x hx hy
  exact hne ((collect_key_name p.1 p.2 x hx).symm.trans (collect_key_name q.1 q.2 x hy))

theorem collected_wellFormed {F : Type} (Namespace : String) (float64 : Int → F)
    (collStatList : CollectionStatList F) :
    ∀ p ∈ parts Namespace (collected float64 collStatList),
      (p.2.map Prod.fst).Nodup ∧ ∀ e ∈ p.2, e.1.length = p.1.desc.variableLabels.length := by
  have key2 : ∀ (g : CollectionStatus F → F) (e : List GoString × F),
      e ∈ VecState.setAll [] (collStatList.Members.map (fun m => (memberKey m, g m))) →
        e.1.length = 2 := by
    intro g e he
    rcases VecState.mem_setAll _ _ e he with h | h
    · cases h
    · obtain ⟨m, _, rfl⟩ := List.mem_map.mp h
      rfl
  have key3 : ∀ e : List GoString × F,
      e ∈ VecState.setAll [] (collStatList.Members.flatMap indexEntries) → e.1.length = 3 := by
    intro e he
    rcases VecState.mem_setAll _ _ e he with h | h
    · cases h
    · obtain ⟨m, _, hm⟩ := List.mem_flatMap.mp h
      obtain ⟨i, _, rfl⟩ := List.mem_map.mp hm
      rfl
  have nd : ∀ kvs : List (List GoString × F),
      ((VecState.setAll [] kvs).map Prod.fst).Nodup :=
    fun kvs => VecState.nodup_keys_setAll kvs [] List.nodup_nil
  intro p hp
  simp only [parts, collected, afterMembers, Vecs.empty, List.mem_cons, List.mem_singleton,
    List.not_mem_nil, or_false] at hp
  rcases hp with rfl | rfl | rfl | rfl | rfl | rfl | rfl
  · exact ⟨nd _, key2 _⟩
  · exact ⟨nd _, key2 _⟩
  · exact ⟨nd _, key2 _⟩
  · exact ⟨nd _, key2 _⟩
  · exact ⟨nd _, key2 _⟩
  · exact ⟨nd _, key2 _⟩
  · exact ⟨nd _, key3⟩

end Mongod

theorem collect_filter_name {F : Type} (v : GaugeVec) (m : VecState F) (n : String) :
    (v.Collect m).filter (fun s => decide (s.name = n))
      = if v.desc.fqName = n then v.Collect m else [] := by
  unfold GaugeVec.Collect
  by_cases h : v.desc.fqName = n
  · rw [if_pos h, List.filter_eq_self]
    intro s hs
    obtain ⟨e, _, rfl⟩ := List.mem_map.mp hs
    exact decide_eq_true h
  · rw [if_neg h, List.filter_eq_nil_iff]
    intro s hs
    obtain ⟨e, _, rfl⟩ := List.mem_map.mp hs
    simpa [Sample.name] using h

namespace Mongod

theorem memberKeys_nodup {F : Type} (members : List (CollectionStatus F))
    (hdist : (members.map (fun m => (m.Database, m.Name))).Nodup) (g : CollectionStatus F → F) :
    ((members.map (fun m => (memberKey m, g m))).map Prod.fst).Nodup := by
  have e : (members.map (fun m => (memberKey m, g m))).map Prod.fst
      = (members.map (fun m => (m.Database, m.Name))).map (fun p => [p.1, p.2]) := by
    simp [memberKey, Function.comp_def]
  rw [e]
  apply List.Nodup.map _ hdist
  intro p q h
  simp only [List.cons.injEq, and_true] at h
  exact Prod.ext h.1 h.2

theorem indexKeys_nodup {F : Type} (members : List (CollectionStatus F))
    (hdist : (members.map (fun m => (m.Database, m.Name))).Nodup)
    (hmap : ∀ m ∈ members, (m.IndexSizes.map Prod.fst).Nodup) :
    ((members.flatMap indexEntries).map Prod.fst).Nodup := by
  rw [List.map_flatMap, List.nodup_flatMap]
  constructor
  · intro m hm
    have e : (indexEntries m).map Prod.fst
        = (m.IndexSizes.map Prod.fst).map (fun i => [m.Database, m.Name, i]) := by
      simp [indexEntries, Function.comp_def]
    rw [e]
    apply List.Nodup.map _ (hmap m hm)
    intro i j h
    simpa using h
  · refine (List.pairwise_map.mp hdist).imp ?_
    intro a b hne x hxa hxb
    obtain ⟨ea, hea, rfl⟩ := List.mem_map.mp hxa
    obtain ⟨eb, heb, hab⟩ := List.mem_map.mp hxb
    obtain ⟨ia, _, rfl⟩ := List.mem_map.mp hea
    obtain ⟨ib, _, rfl⟩ := List.mem_map.mp heb
    simp only [List.cons.injEq, and_true] at hab
    exact hne (Prod.ext hab.1.symm hab.2.1.symm)

end Mongod

namespace Mongod

/-! ### Claims on `CollectionStatList.Export` and `Describe` -/

theorem export_filter_indexSize {F : Type} (Namespace : String) (st : Vecs F) :
    ((parts Namespace st).flatMap (fun p => p.1.Collect p.2)).filter
        (fun s => decide (s.name = (collectionIndexSize Namespace).desc.fqName))
      = (collectionIndexSize Namespace).Collect st.indexSize := by
  have h := fqNames_nodup Namespace
  simp only [List.map, List.nodup_cons, List.mem_cons, List.mem_singleton, not_or,
    List.not_mem_nil, not_false_eq_true, List.nodup_nil, and_true] at h
  obtain ⟨⟨_, _, _, _, _, h1⟩, ⟨_, _, _, _, h2⟩, ⟨_, _, _, h3⟩, ⟨_, _, h4⟩, ⟨_, h5⟩, h6⟩ := h
  simp only [parts, List.flatMap_cons, List.flatMap_nil, List.filter_append, List.append_nil,
    collect_filter_name]
  simp only [collectionSize, collectionObjectCount, collectionAvgObjSize, collectionStorageSize,
    collectionIndexes, collectionIndexesSize, collectionIndexSize, NewGaugeVec,
    h1, h2, h3, h4, h5, h6, if_false, if_true, List.nil_append]

theorem export_filter_indexesSize {F : Type} (Namespace : String) (st : Vecs F) :
    ((parts Namespace st).flatMap (fun p => p.1.Collect p.2)).filter
        (fun s => decide (s.name = (collectionIndexesSize Namespace).desc.fqName))
      = (collectionIndexesSize Namespace).Collect st.indexesSize := by
  have h := fqNames_nodup Namespace
  simp only [List.map, List.nodup_cons, List.mem_cons, List.mem_singleton, not_or,
    List.not_mem_nil, not_false_eq_true, List.nodup_nil, and_true] at h
  obtain ⟨⟨_, _, _, _, h1, _⟩, ⟨_, _, _, h2, _⟩, ⟨_, _, h3, _⟩, ⟨_, h4, _⟩, ⟨h5, _⟩, h6⟩ := h
  simp only [parts, List.flatMap_cons, List.flatMap_nil, List.filter_append, List.append_nil,
    collect_filter_name]
  simp only [collectionSize, collectionObjectCount, collectionAvgObjSize, collectionStorageSize,
    collectionIndexes, collectionIndexesSize, collectionIndexSize, NewGaugeVec,
    h1, h2, h3, h4, h5, Ne.symm h6, if_false, if_true, List.nil_append, List.append_nil]

theorem export_of_valid {F : Type} (Namespace : String) (float64 : Int → F)
    (collStatList : CollectionStatList F) (vecs : Vecs F)
    (hvalid : ∀ m ∈ collStatList.Members, memberValid m = true) :
    Export Namespace float64 collStatList vecs
      = some (collected float64 collStatList,
          (parts Namespace (collected float64 collStatList)).flatMap
            (fun p => p.1.Collect p.2)) := by
  rw [export_eq, if_pos (List.all_eq_true.mpr hvalid)]

theorem export_isSome {F : Type} (Namespace : String) (float64 : Int → F)
    (collStatList : CollectionStatList F) (vecs : Vecs F) :
    (Export Namespace float64 collStatList vecs).isSome
      = collStatList.Members.all memberValid := by
  rw [export_eq]
  by_cases hv : collStatList.Members.all memberValid = true
  · simp [hv]
  · simp [hv]

theorem samplesOf_export {F : Type} (Namespace : String) (float64 : Int → F)
    (collStatList : CollectionStatList F) (vecs : Vecs F)
    (s : Sample F) (hs : s ∈ samplesOf (Export Namespace float64 collStatList vecs)) :
    s ∈ (parts Namespace (collected float64 collStatList)).flatMap (fun p => p.1.Collect p.2) := by
  rw [export_eq] at hs
  by_cases hv : collStatList.Members.all memberValid = true
  · simpa [hv, samplesOf] using hs
  · simp [hv, samplesOf] at hs

/-- C5, as stated, fails: the list `invalidNameList` has one member, so its
`(Database, Name)` pairs are pairwise distinct, and that member has one
`IndexSizes` entry; its `Name` is not valid UTF-8, `With` panics on it and
`Export` emits no sample at all. -/
theorem export_panics_on_invalid_name :
    (invalidNameList.Members.map (fun m => (m.Database, m.Name))).Nodup
    ∧ invalidNameList.Members.map (fun m => m.IndexSizes.length) = [1]
    ∧ invalidNameList.Members.map (fun m => (ValidString m.Database, ValidString m.Name))
        = [(true, false)]
    ∧ Export "mongodb" id invalidNameList Vecs.empty = none
    ∧ samplesOf (Export "mongodb" id invalidNameList Vecs.empty) = [] := by
  decide

/-- C5, amended: for a list whose members have pairwise distinct `(Database, Name)`
and whose label values (`Database`, `Name` and the keys of `IndexSizes`, which
as keys of a Go map are pairwise distinct) are valid UTF-8, `Export` succeeds and
the samples it emits under the name of `collectionIndexSize` are, up to order,
one per member and entry of its `IndexSizes`, labelled `db`, `coll` and
`index` = the entry's key with the entry's size as value, and the samples it
emits under the name of `collectionIndexesSize` are, up to order, exactly one
per member, labelled `db`, `coll`, with value `float64(member.IndexesSize)`. -/
theorem export_index_sizes {F : Type} (Namespace : String) (float64 : Int → F)
    (collStatList : CollectionStatList F) (vecs : Vecs F)
    (hdist : (collStatList.Members.map (fun m => (m.Database, m.Name))).Nodup)
    (hmap : ∀ m ∈ collStatList.Members, (m.IndexSizes.map Prod.fst).Nodup)
    (hvalid : ∀ m ∈ collStatList.Members, memberValid m = true) :
    ∃ st out, Export Namespace float64 collStatList vecs = some (st, out)
      ∧ (out.filter (fun s => decide (s.name = BuildFQName Namespace "db_coll" "index_size"))).Perm
          (collStatList.Members.flatMap (fun m => m.IndexSizes.map (indexSizeSample Namespace m)))
      ∧ (out.filter (fun s => decide (s.name = BuildFQName Namespace "db_coll" "indexes_size"))).Perm
          (collStatList.Members.map (indexesSizeSample Namespace float64))
      ∧ (∀ (m : CollectionStatus F) (e : GoString × F),
          (indexSizeSample Namespace m e).name = BuildFQName Namespace "db_coll" "index_size"
          ∧ (indexSizeSample Namespace m e).labels
              = [("db", m.Database), ("coll", m.Name), ("index", e.1)]
          ∧ (indexSizeSample Namespace m e).value = e.2)
      ∧ (∀ m : CollectionStatus F,
          (indexesSizeSample Namespace float64 m).name
              = BuildFQName Namespace "db_coll" "indexes_size"
          ∧ (indexesSizeSample Namespace float64 m).labels
              = [("db", m.Database), ("coll", m.Name)]
          ∧ (indexesSizeSample Namespace float64 m).value = float64 m.IndexesSize) := by
  refine ⟨_, _, export_of_valid Namespace float64 collStatList vecs hvalid, ?_, ?_, ?_, ?_⟩
  · have h := export_filter_indexSize Namespace (collected float64 collStatList)
    simp only [collectionIndexSize, NewGaugeVec] at h
    rw [h]
    have hs : (collected float64 collStatList).indexSize
        = collStatList.Members.flatMap indexEntries := by
      show VecState.setAll [] _ = _
      rw [VecState.setAll_of_nodup _ [] (indexKeys_nodup _ hdist hmap) (fun _ _ h => by cases h)]
      rfl
    rw [hs]
    apply List.Perm.of_eq
    simp only [GaugeVec.Collect, indexEntries, List.map_flatMap, List.map_map]
    rfl
  · have h := export_filter_indexesSize Namespace (collected float64 collStatList)
    simp only [collectionIndexesSize, NewGaugeVec] at h
    rw [h]
    have hs : (collected float64 collStatList).indexesSize
        = collStatList.Members.map (fun m => (memberKey m, float64 m.IndexesSize)) := by
      show VecState.setAll [] _ = _
      rw [VecState.setAll_of_nodup _ [] (memberKeys_nodup _ hdist _) (fun _ _ h => by cases h)]
      rfl
    rw [hs]
    apply List.Perm.of_eq
    simp only [GaugeVec.Collect, List.map_map]
    rfl
  · intro m e
    exact ⟨rfl, rfl, rfl⟩
  · intro m
    exact ⟨rfl, rfl, rfl⟩

end Mongod

namespace Mongod

/-- C5 amended, at a concrete input: `indexSizes` `_id_: 4096`, `name_1: 2048` of
`shop.orders` give two `index_size` samples and one `indexes_size` sample. -/
theorem export_index_sizes_witness :
    ∃ st out, Export "mongodb" id ordersList Vecs.empty = some (st, out)
      ∧ (out.filter (fun s => decide (s.name = BuildFQName "mongodb" "db_coll" "index_size"))).Perm
          [indexSizeSample "mongodb" ordersStatus (GoString.ofString "_id_", 4096),
           indexSizeSample "mongodb" ordersStatus (GoString.ofString "name_1", 2048)]
      ∧ (out.filter (fun s => decide (s.name = BuildFQName "mongodb" "db_coll" "indexes_size"))).Perm
          [indexesSizeSample "mongodb" id ordersStatus] := by
  obtain ⟨st, out, h, h₁, h₂, _⟩ :=
    export_index_sizes "mongodb" id ordersList Vecs.empty (by decide) (by decide) (by decide)
  exact ⟨st, out, h, h₁, h₂⟩

/-- C6: for every list, also one whose `Members` repeat a `(Database, Name)` pair,
and every prior content of the vectors, no two of the samples `Export` emits
have the same metric name and the same label set; `Export` emits samples
(does not panic) exactly when every label value of the list is valid UTF-8. -/
theorem export_no_duplicate_series {F : Type} (Namespace : String) (float64 : Int → F)
    (collStatList : CollectionStatList F) (vecs : Vecs F) :
    ((samplesOf (Export Namespace float64 collStatList vecs)).map Sample.key).Nodup
    ∧ (Export Namespace float64 collStatList vecs).isSome
        = collStatList.Members.all memberValid := by
  refine ⟨?_, export_isSome Namespace float64 collStatList vecs⟩
  rw [export_eq]
  by_cases hv : collStatList.Members.all memberValid = true
  · simp only [hv, if_true, samplesOf]
    rw [List.map_flatMap, List.nodup_flatMap]
    refine ⟨?_, parts_pairwise_disjoint Namespace _⟩
    intro p hp
    obtain ⟨hnd, hlen⟩ := collected_wellFormed Namespace float64 collStatList p hp
    exact collect_key_nodup p.1 p.2 hnd hlen
  · simp [hv, samplesOf]

/-- C6, at a concrete input: a list that holds `shop.orders` twice, exported over
vectors that still hold a child of an earlier scrape; eight samples are emitted,
not sixteen. -/
theorem export_no_duplicate_series_witness :
    (((samplesOf (Export "mongodb" id
          ({ Members := [ordersStatus, ordersStatus] } : CollectionStatList Int)
          { Vecs.empty with size := [([GoString.ofString "shop", GoString.ofString "carts"], 7)] })).map
        Sample.key).Nodup
      ∧ (Export "mongodb" id ({ Members := [ordersStatus, ordersStatus] } : CollectionStatList Int)
          { Vecs.empty with size := [([GoString.ofString "shop", GoString.ofString "carts"], 7)] }).isSome
        = [ordersStatus, ordersStatus].all memberValid)
    ∧ (samplesOf (Export "mongodb" id
          ({ Members := [ordersStatus, ordersStatus] } : CollectionStatList Int)
          { Vecs.empty with size := [([GoString.ofString "shop", GoString.ofString "carts"], 7)] })).length
        = 8
    ∧ [ordersStatus, ordersStatus].all memberValid = true :=
  ⟨export_no_duplicate_series "mongodb" id { Members := [ordersStatus, ordersStatus] }
      { Vecs.empty with size := [([GoString.ofString "shop", GoString.ofString "carts"], 7)] },
   by decide, by decide⟩

/-- C7: for every list and every prior content of the seven gauge vectors,
`Export` does exactly what it does when the vectors start empty: the same
result (the same vectors and the same samples, or the same panic, which
occurs exactly when a label value of the list is not valid UTF-8); and every
sample emitted carries the `Database` and `Name` of a member of the list (and,
with a third label value, the key of one of that member's `IndexSizes`). -/
theorem export_ignores_prior_vectors {F : Type} (Namespace : String) (float64 : Int → F)
    (collStatList : CollectionStatList F) (vecs : Vecs F) :
    Export Namespace float64 collStatList vecs
        = Export Namespace float64 collStatList Vecs.empty
      ∧ (Export Namespace float64 collStatList vecs).isSome
          = collStatList.Members.all memberValid
      ∧ ∀ s ∈ samplesOf (Export Namespace float64 collStatList vecs),
          ∃ m ∈ collStatList.Members,
            s.labelValues = [m.Database, m.Name]
            ∨ ∃ e ∈ m.IndexSizes, s.labelValues = [m.Database, m.Name, e.1] := by
  refine ⟨by rw [export_eq, export_eq], export_isSome Namespace float64 collStatList vecs, ?_⟩
  intro s hs
  have hs := samplesOf_export Namespace float64 collStatList vecs s hs
  obtain ⟨p, hp, hsp⟩ := List.mem_flatMap.mp hs
  obtain ⟨e, he, rfl⟩ := List.mem_map.mp hsp
  have key2 : ∀ (g : CollectionStatus F → F),
      e ∈ VecState.setAll [] (collStatList.Members.map (fun m => (memberKey m, g m))) →
        ∃ m ∈ collStatList.Members, e.1 = [m.Database, m.Name]
          ∨ ∃ i ∈ m.IndexSizes, e.1 = [m.Database, m.Name, i.1] := by
    intro g he
    rcases VecState.mem_setAll _ _ e he with h | h
    · cases h
    · obtain ⟨m, hm, rfl⟩ := List.mem_map.mp h
      exact ⟨m, hm, Or.inl rfl⟩
  simp only [parts, collected, afterMembers, Vecs.empty, List.mem_cons, List.mem_singleton,
    List.not_mem_nil, or_false] at hp
  rcases hp with rfl | rfl | rfl | rfl | rfl | rfl | rfl
  · exact key2 _ he
  · exact key2 _ he
  · exact key2 _ he
  · exact key2 _ he
  · exact key2 _ he
  · exact key2 _ he
  · rcases VecState.mem_setAll _ _ e he with h | h
    · cases h
    · obtain ⟨m, hm, hme⟩ := List.mem_flatMap.mp h
      obtain ⟨i, hi, rfl⟩ := List.mem_map.mp hme
      exact ⟨m, hm, Or.inr ⟨i, hi, rfl⟩⟩

/-- C10 fails on the code: for the list holding `shop.orders` with its two
indexes, `Export` emits a sample of the metric `index_size`, and `Describe`
sends no descriptor of that name (it sends six descriptors, the one of
`collectionIndexSize` is missing). -/
theorem describe_omits_index_size (Namespace : String) (vecs : Vecs Int) :
    ∃ st out, Export Namespace id ordersList vecs = some (st, out)
      ∧ (Describe Namespace).length = 6
      ∧ ∃ s ∈ out, s.name = BuildFQName Namespace "db_coll" "index_size"
          ∧ s.labels = [("db", GoString.ofString "shop"), ("coll", GoString.ofString "orders"),
                ("index", GoString.ofString "_id_")]
          ∧ s.desc ∉ Describe Namespace
          ∧ s.name ∉ (Describe Namespace).map Desc.fqName := by
  refine ⟨_, _, export_of_valid Namespace id ordersList vecs (by decide), rfl,
    indexSizeSample Namespace ordersStatus (GoString.ofString "_id_", 4096), ?_, rfl, rfl,
    ?_, ?_⟩
  · apply List.mem_flatMap.mpr
    refine ⟨(collectionIndexSize Namespace, (collected id ordersList).indexSize), ?_, ?_⟩
    · simp [parts]
    · apply List.mem_map.mpr
      refine ⟨([GoString.ofString "shop", GoString.ofString "orders",
        GoString.ofString "_id_"], 4096), ?_, rfl⟩
      show _ ∈ (collected id ordersList).indexSize
      decide
  · have hd : ∀ d ∈ Describe Namespace, d.variableLabels = ["db", "coll"] := by
      intro d hd
      simp only [Describe, GaugeVec.Describe, List.mem_append, List.mem_singleton] at hd
      rcases hd with ((((rfl | rfl) | rfl) | rfl) | rfl) | rfl <;> rfl
    intro hmem
    have h3 : (["db", "coll", "index"] : List String) = ["db", "coll"] := hd _ hmem
    exact absurd h3 (by decide)
  · have h := fqNames_nodup Namespace
    simp only [List.map, List.nodup_cons, List.mem_cons, List.mem_singleton, not_or,
      List.not_mem_nil, not_false_eq_true, List.nodup_nil, and_true] at h
    obtain ⟨⟨_, _, _, _, _, h1⟩, ⟨_, _, _, _, h2⟩, ⟨_, _, _, h3⟩, ⟨_, _, h4⟩, ⟨_, h5⟩, h6⟩ := h
    simp only [Describe, GaugeVec.Describe, List.map_append, List.map_cons, List.map_nil,
      List.mem_append, List.mem_singleton, not_or, indexSizeSample, Sample.name,
      collectionSize, collectionObjectCount, collectionAvgObjSize, collectionStorageSize,
      collectionIndexes, collectionIndexesSize, collectionIndexSize, NewGaugeVec]
    exact ⟨⟨⟨⟨⟨Ne.symm h1, Ne.symm h2⟩, Ne.symm h3⟩, Ne.symm h4⟩, Ne.symm h5⟩, Ne.symm h6⟩

end Mongod

namespace Mongos

/-! ### Claim on `ConnectionStats.Export` -/

theorem export_of_vecInv {F : Type} (Namespace : String) (connectionStats : ConnectionStats F)
    (vec : VecState F) (h : VecInv vec) :
    Export Namespace connectionStats vec
      = some ([([GoString.ofString "current"], connectionStats.Current),
               ([GoString.ofString "available"], connectionStats.Available)],
              expectedSamples Namespace connectionStats) := by
  rcases h with rfl | ⟨c, a, rfl⟩ <;> rfl

theorem afterExports_vecInv {F : Type} (Namespace : String) (history : List (ConnectionStats F)) :
    ∀ vec : VecState F, VecInv vec →
      ∃ vec', history.foldlM (fun vec cs => (Export Namespace cs vec).map Prod.fst) vec = some vec'
        ∧ VecInv vec' := by
  induction history with
  | nil => intro vec h; exact ⟨vec, rfl, h⟩
  | cons cs rest ih =>
    intro vec h
    rw [List.foldlM_cons, export_of_vecInv Namespace cs vec h]
    exact ih _ (Or.inr ⟨_, _, rfl⟩)

/-- C4: for every `ConnectionStats` value and whatever calls of `Export` came
before, `Export` succeeds and emits exactly three samples (up to order): the
gauge `connections` with label `state` = `current` and value `Current`, the
gauge `connections` with label `state` = `available` and value `Available`, and
the counter `connections_metrics_created_total` without labels and with value
`TotalCreated`. -/
theorem export_connections {F : Type} (Namespace : String) (history : List (ConnectionStats F))
    (connectionStats : ConnectionStats F) :
    ∃ vec st out, afterExports Namespace history = some vec
      ∧ Export Namespace connectionStats vec = some (st, out)
      ∧ out.Perm (expectedSamples Namespace connectionStats)
      ∧ (expectedSamples Namespace connectionStats).map
            (fun s => (s.name, s.labels, s.value, s.kind))
          = [(BuildFQName Namespace "" "connections", [("state", GoString.ofString "current")],
                connectionStats.Current, ValueType.GaugeValue),
             (BuildFQName Namespace "" "connections", [("state", GoString.ofString "available")],
                connectionStats.Available, ValueType.GaugeValue),
             (BuildFQName Namespace "connections_metrics" "created_total", [],
                connectionStats.TotalCreated, ValueType.CounterValue)] := by
  obtain ⟨vec, hvec, hinv⟩ := afterExports_vecInv Namespace history [] (Or.inl rfl)
  exact ⟨vec, _, _, hvec, export_of_vecInv Namespace connectionStats vec hinv,
    List.Perm.refl _, rfl⟩

/-- C4, at the input of the scenario: `current` 5, `available` 995, `totalCreated`
120, after one earlier call of `Export`. -/
theorem export_connections_witness :
    ∃ vec st out, afterExports "mongodb_mongos" [⟨1, 2, 3⟩] = some vec
      ∧ Export "mongodb_mongos" (⟨5, 995, 120⟩ : ConnectionStats Int) vec = some (st, out)
      ∧ out.Perm (expectedSamples "mongodb_mongos" ⟨5, 995, 120⟩)
      ∧ (expectedSamples "mongodb_mongos" (⟨5, 995, 120⟩ : ConnectionStats Int)).map
            (fun s => (s.name, s.labels, s.value, s.kind))
          = [("mongodb_mongos_connections", [("state", GoString.ofString "current")], 5,
                ValueType.GaugeValue),
             ("mongodb_mongos_connections", [("state", GoString.ofString "available")], 995,
                ValueType.GaugeValue),
             ("mongodb_mongos_connections_metrics_created_total", [], 120,
                ValueType.CounterValue)] :=
  export_connections "mongodb_mongos" [⟨1, 2, 3⟩] ⟨5, 995, 120⟩

end Mongos

namespace Exporter

/-! ### Claims on `replSetGetConfigCollector` -/

/-- C8: when decoding the result of `replSetGetConfig` fails with a command error
whose code is `replicationNotYetInitialized` or `replicationNotEnabled`,
`Collect` sends no metric and logs nothing; when it fails with any other error,
or the `config` field of the decoded document is not a document, `Collect`
sends no metric and logs exactly one error (and nothing else). -/
theorem collect_failures {F : Type} (pkg : Package F) (d : replSetGetConfigCollector) :
    (∀ err, d.client replSetGetConfigCmd = .error err → Benign pkg err →
        (Collect pkg d).metrics = [] ∧ (Collect pkg d).log = [])
    ∧ (∀ err, d.client replSetGetConfigCmd = .error err → ¬ Benign pkg err →
        (Collect pkg d).metrics = [] ∧ (errorsOf (Collect pkg d).log).length = 1
          ∧ (Collect pkg d).log.length = 1)
    ∧ (∀ m, d.client replSetGetConfigCmd = .ok m → (∀ c, m.lookup "config" ≠ some (.M c)) →
        (Collect pkg d).metrics = [] ∧ (errorsOf (Collect pkg d).log).length = 1
          ∧ (Collect pkg d).log.length = 1) := by
  refine ⟨?_, ?_, ?_⟩
  · intro err he hb
    unfold Collect
    simp only [he]
    cases err with
    | commandError code msg =>
      have hb' : code = pkg.replicationNotYetInitialized ∨ code = pkg.replicationNotEnabled := hb
      simp [hb']
    | other msg => exact absurd hb (by simp [Benign])
  · intro err he hb
    unfold Collect
    simp only [he]
    cases err with
    | commandError code msg =>
      have hb' : ¬ (code = pkg.replicationNotYetInitialized ∨ code = pkg.replicationNotEnabled) :=
        hb
      simp [hb', errorsOf]
    | other msg => simp [errorsOf]
  · intro m hm hc
    unfold Collect
    simp only [hm]
    simp [errorsOf]

/-- C8, at concrete inputs: code 94 (benign), code 13 (not benign), and a document
whose `config` field is a string. -/
theorem collect_failures_witness :
    ((Collect examplePackage (collectorAnswering (.error (.commandError 94 "no replset config")))).metrics = []
      ∧ (Collect examplePackage (collectorAnswering (.error (.commandError 94 "no replset config")))).log = [])
    ∧ ((Collect examplePackage (collectorAnswering (.error (.commandError 13 "unauthorized")))).metrics = []
      ∧ (errorsOf (Collect examplePackage
            (collectorAnswering (.error (.commandError 13 "unauthorized")))).log).length = 1
      ∧ (Collect examplePackage
            (collectorAnswering (.error (.commandError 13 "unauthorized")))).log.length = 1)
    ∧ ((Collect examplePackage (collectorAnswering (.ok [("config", .string "x")]))).metrics = []
      ∧ (errorsOf (Collect examplePackage
            (collectorAnswering (.ok [("config", .string "x")]))).log).length = 1
      ∧ (Collect examplePackage (collectorAnswering (.ok [("config", .string "x")]))).log.length = 1) :=
  ⟨(collect_failures examplePackage
      (collectorAnswering (.error (.commandError 94 "no replset config")))).1 _ rfl (Or.inl rfl),
   (collect_failures examplePackage
      (collectorAnswering (.error (.commandError 13 "unauthorized")))).2.1 _ rfl
        (by simp [Benign, examplePackage]),
   (collect_failures examplePackage
      (collectorAnswering (.ok [("config", .string "x")]))).2.2 _ rfl (by simp [List.lookup])⟩

/-- C9, as stated, fails: while `Describe` runs on a collector whose server is
unreachable, the command `replSetGetConfig` is sent to the server (and its
failure is logged). -/
theorem describe_runs_command :
    (Describe examplePackage (collectorAnswering (.error (.other "connection refused")))).commands
        = [{ db := "admin", cmd := [("replSetGetConfig", "1")] }]
    ∧ (Describe examplePackage (collectorAnswering (.error (.other "connection refused")))).log
        = [LogEntry.errorf "cannot get replSetGetConfig: %s" "connection refused"] := by
  decide

/-- C9, amended: `Describe` is `DescribeByCollect`: it runs `Collect` once, so
exactly one command, `replSetGetConfig` on `admin`, is sent while it runs, and
the descriptors it sends are those of the metrics `Collect` sends for the
server's answer: none when decoding fails (benign or not) or the `config`
field is not a document, and those of `makeMetrics` on the `config` document
otherwise. -/
theorem describe_by_collect {F : Type} (pkg : Package F) (d : replSetGetConfigCollector) :
    (Describe pkg d).commands = [replSetGetConfigCmd]
    ∧ (Describe pkg d).commands = (Collect pkg d).commands
    ∧ (Describe pkg d).descs = (Collect pkg d).metrics.map (fun s => s.desc)
    ∧ (∀ err, d.client replSetGetConfigCmd = .error err → (Describe pkg d).descs = [])
    ∧ (∀ m, d.client replSetGetConfigCmd = .ok m → (∀ c, m.lookup "config" ≠ some (.M c)) →
        (Describe pkg d).descs = [])
    ∧ (∀ m c, d.client replSetGetConfigCmd = .ok m → m.lookup "config" = some (.M c) →
        (Describe pkg d).descs
          = (pkg.makeMetrics "cfg" c d.baseLabels d.compatibleMode).map (fun s => s.desc)) := by
  refine ⟨?_, rfl, rfl, ?_, ?_, ?_⟩
  · cases hres : d.client replSetGetConfigCmd with
    | error err =>
      simp only [Describe, DescribeByCollect, Collect, hres]
      cases err with
      | commandError code msg => dsimp only; split <;> rfl
      | other msg => rfl
    | ok m =>
      simp only [Describe, DescribeByCollect, Collect, hres]
      split <;> rfl
  · intro err he
    simp only [Describe, DescribeByCollect, Collect, he]
    cases err with
    | commandError code msg => dsimp only; split <;> rfl
    | other msg => rfl
  · intro m hm hc
    simp only [Describe, DescribeByCollect, Collect, hm]
    simp
  · intro m c hm hc
    unfold Describe DescribeByCollect Collect
    simp only [hm, hc]

/-- C9 amended, at concrete inputs: a server answering with an error, one
answering with a document without `config`, and one answering with a `config`
document. -/
theorem describe_by_collect_witness :
    (Describe examplePackage (collectorAnswering (.error (.commandError 76 "not running with --replSet")))).descs = []
    ∧ (Describe examplePackage (collectorAnswering (.ok [("ok", .int32 1)]))).descs = []
    ∧ (Describe examplePackage
          (collectorAnswering (.ok [("config", .M [("version", .int64 3)])]))).descs
        = (examplePackage.makeMetrics "cfg" [("version", .int64 3)] [] false).map
            (fun s => s.desc) :=
  ⟨(describe_by_collect examplePackage
      (collectorAnswering (.error (.commandError 76 "not running with --replSet")))).2.2.2.1 _ rfl,
   (describe_by_collect examplePackage
      (collectorAnswering (.ok [("ok", .int32 1)]))).2.2.2.2.1 _ rfl (by simp [List.lookup]),
   (describe_by_collect examplePackage
      (collectorAnswering (.ok [("config", .M [("version", .int64 3)])]))).2.2.2.2.2 _ _ rfl rfl⟩

end Exporter

end MongodbExporter
